import Mathlib

/-!
Shallow embedding of the Shiva prelinker (`src/tools/shiva-ld/shiva-ld.c`).

The prelinker rewrites an ELF executable: it repurposes the PT_NOTE program
header as a new PT_LOAD, builds a fresh dynamic array (the original entries
minus their terminator, plus three Shiva tags and a terminator), appends the
search-path / patch-basename / original-interpreter strings, writes the result
to a temporary file, renames it over the output path, stamps a signature into
the ELF identification padding and finally overwrites the PT_INTERP string.

Machine integers are modelled as `Nat` with explicit `% 2 ^ 64` where the C
performs 64-bit arithmetic that may wrap.  Byte buffers are `List Nat`.
The underlying ELF-object library (libelfmaster) is external to the
repository; it is modelled by the fields of `ElfObj` (parsed program headers,
section headers, dynamic entries, the interpreter string, and a byte-level
`readByte` view of the mapped image addressed by virtual address), which is
the narrow contract the prelinker consumes.
-/

namespace ShivaLd

/-- 2^64, the modulus of the C code's 64-bit arithmetic. -/
def U64 : Nat := 2 ^ 64

/- ELF constants from <elf.h>. -/
def PT_LOAD : Nat := 1
def PT_DYNAMIC : Nat := 2
def PT_INTERP : Nat := 3
def PT_NOTE : Nat := 4
def PF_X : Nat := 1
def PF_W : Nat := 2
def PF_R : Nat := 4
def DT_NULL : Nat := 0
def DT_LOOS : Nat := 0x6000000d
def SHT_DYNAMIC : Nat := 6
def EI_PAD : Nat := 9

/- Constants from shiva-ld.c. -/
def SHIVA_DT_NEEDED : Nat := DT_LOOS + 10
def SHIVA_DT_SEARCH : Nat := DT_LOOS + 11
def SHIVA_DT_ORIG_INTERP : Nat := DT_LOOS + 12
def SHIVA_SIGNATURE : Nat := 0x31f64
def ELF_MIN_ALIGN : Nat := 4096
def NEW_DYN_COUNT : Nat := 3

/-- `sizeof(ElfW(Dyn))` on a 64-bit target. -/
def sizeofDyn : Nat := 16

/-- `ELF_PAGEALIGN(v, a) = ((v) + a - 1) & ~(a - 1)` for a power-of-two `a`,
with the 64-bit wrap of `v + a - 1` made explicit. -/
def ELF_PAGEALIGN (v a : Nat) : Nat :=
  ((v + a - 1) % U64) - ((v + a - 1) % U64) % a

/-- C `strlen`-style truncation at the first NUL byte. -/
def cstr (l : List Nat) : List Nat := l.takeWhile (fun b => b != 0)

/-- C `strlen` of a byte string. -/
def cstrlen (l : List Nat) : Nat := (cstr l).length

/-- The 8 little-endian bytes of a 64-bit store (extra high bits drop out, as
in the C cast to `uint64_t`). -/
def toLE8 (n : Nat) : List Nat :=
  [n % 256, n / 256 % 256, n / 256 ^ 2 % 256, n / 256 ^ 3 % 256,
   n / 256 ^ 4 % 256, n / 256 ^ 5 % 256, n / 256 ^ 6 % 256, n / 256 ^ 7 % 256]

/-- The 4 little-endian bytes of a 32-bit store. -/
def toLE4 (n : Nat) : List Nat :=
  [n % 256, n / 256 % 256, n / 256 ^ 2 % 256, n / 256 ^ 3 % 256]

/-- Assemble a little-endian number from a byte list. -/
def fromLE (bs : List Nat) : Nat := bs.foldr (fun b acc => b + 256 * acc) 0

/-- Overwrite `repl.length` bytes of `l` starting at offset `off`
(a `memcpy` into a larger buffer). -/
def writeBytesAt (l : List Nat) (off : Nat) (repl : List Nat) : List Nat :=
  l.take off ++ repl ++ l.drop (off + repl.length)

/-- One `ElfW(Dyn)` entry: tag and pointer/value union. -/
structure ElfDyn where
  d_tag : Nat
  d_ptr : Nat
  deriving DecidableEq, Repr

/-- Serialize one dynamic entry (16 bytes, little-endian). -/
def serializeDyn (d : ElfDyn) : List Nat := toLE8 d.d_tag ++ toLE8 d.d_ptr

/-- Serialize a dynamic array. -/
def dynBytes (ds : List ElfDyn) : List Nat := ds.flatMap serializeDyn

/-- Parse a byte region back into 16-byte dynamic entries (trailing partial
chunks are dropped). -/
def parseDyns : List Nat → List ElfDyn
  | b0 :: b1 :: b2 :: b3 :: b4 :: b5 :: b6 :: b7 ::
    c0 :: c1 :: c2 :: c3 :: c4 :: c5 :: c6 :: c7 :: rest =>
      ⟨fromLE [b0, b1, b2, b3, b4, b5, b6, b7],
       fromLE [c0, c1, c2, c3, c4, c5, c6, c7]⟩ :: parseDyns rest
  | _ => []

/-- `struct elf_segment` of libelfmaster: the program-header view. -/
structure ElfSegment where
  ptype : Nat
  flags : Nat
  offset : Nat
  vaddr : Nat
  paddr : Nat
  filesz : Nat
  memsz : Nat
  align : Nat
  deriving DecidableEq, Repr

/-- `struct elf_section` of libelfmaster (the fields shiva-ld touches). -/
structure ElfSection where
  stype : Nat
  offset : Nat
  address : Nat
  size : Nat
  deriving DecidableEq, Repr

/-- The libelfmaster view of an opened ELF object (`elfobj_t`): the parsed
structures the prelinker consumes, plus a byte-level read view addressed by
virtual address.  `mem`/`size` are the raw mapped file image; `dyns` is the
parsed dynamic array; `dynFlag` is `elf_flags(_, ELF_DYNAMIC_F)`; `interp` is
`elf_interpreter_path` (`none` when the object has no PT_INTERP), `interpOff`
the file offset of that string. -/
structure ElfObj where
  path : String
  size : Nat
  mem : List Nat
  phdrs : List ElfSegment
  sections : List ElfSection
  dyns : List ElfDyn
  dynFlag : Bool
  interp : Option (List Nat)
  interpOff : Nat
  readByte : Nat → Option Nat

/-- `elf_dtag_count`. -/
def elf_dtag_count (elfobj : ElfObj) : Nat := elfobj.dyns.length

/-- `elf_read_address(elfobj, addr, &q, ELF_BYTE)`. -/
def elf_read_byte (elfobj : ElfObj) (addr : Nat) : Option Nat :=
  elfobj.readByte addr

/-- `elf_read_address(elfobj, addr, &q, ELF_QWORD)`: assemble 8 bytes,
little-endian. -/
def elf_read_qword (elfobj : ElfObj) (addr : Nat) : Option Nat :=
  match elfobj.readByte addr, elfobj.readByte (addr + 1),
        elfobj.readByte (addr + 2), elfobj.readByte (addr + 3),
        elfobj.readByte (addr + 4), elfobj.readByte (addr + 5),
        elfobj.readByte (addr + 6), elfobj.readByte (addr + 7) with
  | some b0, some b1, some b2, some b3, some b4, some b5, some b6, some b7 =>
      some (fromLE [b0, b1, b2, b3, b4, b5, b6, b7])
  | _, _, _, _, _, _, _, _ => none

/-- File metadata tracked by `stat`/`fchown`/`fchmod`. -/
structure FileMeta where
  uid : Nat
  gid : Nat
  mode : Nat
  deriving DecidableEq, Repr

/-- A file: contents plus metadata. -/
structure FSFile where
  bytes : List Nat
  meta : FileMeta
  deriving DecidableEq

/-- The file system as a map from paths to files. -/
def FS : Type := String → Option FSFile

/-- Create or overwrite a file. -/
def FS.setFile (fs : FS) (p : String) (f : FSFile) : FS :=
  fun q => if q = p then some f else fs q

/-- Remove a file. -/
def FS.erase (fs : FS) (p : String) : FS :=
  fun q => if q = p then none else fs q

/-- `rename(src, dst)`. -/
def FS.rename (fs : FS) (src dst : String) : FS :=
  match fs src with
  | none => fs
  | some f => (fs.erase src).setFile dst f

/-!
## `elf_segment_copy`

The source copies a segment qword by qword into a caller-supplied buffer:

```
for (i = 0; i < segment.filesz; i += sizeof(uint64_t)) {
    if (i + sizeof(uint64_t) >= segment.filesz) {
        for (j = 0; j < rem; j++) { read byte -> dst[i + j]; }
        break;
    }
    read qword -> *(uint64_t *)&dst[i];
}
```

where `rem = segment.filesz % sizeof(uint64_t)`.  The buffer is a `List Nat`;
a byte store is `List.set`, a qword store writes the 8 little-endian bytes.
`none` models the `false` return on a failed `elf_read_address`.
-/

/-- The inner `for (j = 0; j < rem; j++)` loop: copy `cnt` single bytes read
from virtual addresses `src + 0, src + 1, …` to buffer offsets
`di + 0, di + 1, …` (the C casts each qword-read result to `uint8_t`). -/
def segCopyTail (elfobj : ElfObj) (src di : Nat) :
    Nat → List Nat → Option (List Nat)
  | 0, dst => some dst
  | Nat.succ k, dst =>
      match elf_read_byte elfobj src with
      | none => none
      | some q => segCopyTail elfobj (src + 1) (di + 1) k (dst.set di (q % 256))

/-- The outer copy loop of `elf_segment_copy`, started at index `i`.  The
first `Nat` argument counts the passes still permitted: the loop advances
`i` by 8 each pass, so the `filesz / 8 + 1` passes granted at the call site
always cover the `i < filesz` range, and the out-of-passes branch (which
behaves like the loop-exit branch) is never reached. -/
def segCopyLoop (elfobj : ElfObj) (vaddr filesz rem : Nat) :
    Nat → Nat → List Nat → Option (List Nat)
  | 0, _, dst => some dst
  | Nat.succ fuel, i, dst =>
    if i < filesz then
      if i + 8 ≥ filesz then
        segCopyTail elfobj (vaddr + i) i rem dst
      else
        match elf_read_qword elfobj (vaddr + i) with
        | none => none
        | some q =>
          segCopyLoop elfobj vaddr filesz rem fuel (i + 8)
            (writeBytesAt dst i (toLE8 q))
    else
      some dst

/-- `elf_segment_copy(elfobj, dst, segment)`: `some dst'` models the `true`
return with the buffer's final contents, `none` the `false` return. -/
def elf_segment_copy (elfobj : ElfObj) (dst : List Nat)
    (segment : ElfSegment) : Option (List Nat) :=
  segCopyLoop elfobj segment.vaddr segment.filesz (segment.filesz % 8)
    (segment.filesz / 8 + 1) 0 dst

/-!
## The program-header scan of `shiva_prelink`

The `while (elf_segment_iterator_next(...))` loop tracks the last PT_LOAD,
captures the PT_DYNAMIC segment (copying its contents and pre-computing the
new segment's sizes), and breaks at the first PT_NOTE, which is repurposed as
the new PT_LOAD.  `.ok none` models falling off the end of the iterator with
no PT_NOTE found (`found_note == false`).
-/

/-- Arguments of `shiva_prelink` (the `shiva_prelink_ctx` input fields;
string-valued fields that are written into the output are byte lists). -/
structure ShivaPrelinkCtx where
  input_exec : String
  input_patch : List Nat
  output_exec : String
  search_path : List Nat
  interp_path : List Nat

/-- The mutable locals of the scan loop.  In the C they are uninitialized
stack variables; the zero/empty initial values stand for their indeterminate
contents, and every theorem that depends on one of them requires the program
header that initializes it to be present. -/
structure ScanSt where
  last_load_vaddr : Nat
  last_load_offset : Nat
  last_load_size : Nat
  last_load_align : Nat
  found_dynamic : Bool
  dyn_src : ElfSegment
  dyn_size : Nat
  pre_filesz : Nat
  dynamic_index : Nat
  old_dynamic_segment : List Nat
  old_dynamic_size : Nat
  deriving DecidableEq

/-- Initial scan state. -/
def initScanSt : ScanSt :=
  ⟨0, 0, 0, 0, false, ⟨0, 0, 0, 0, 0, 0, 0, 0⟩, 0, 0, 0, [], 0⟩

/-- Result of a scan that reached its PT_NOTE `break`: the new PT_LOAD
program header, the rewritten PT_DYNAMIC program header, the index of the
repurposed PT_NOTE slot, and the loop state at the break. -/
structure ScanOut where
  n_segment : ElfSegment
  dyn_segment : ElfSegment
  note_index : Nat
  st : ScanSt
  deriving DecidableEq

/-- The `n_segment` the PT_NOTE branch builds: the repurposed PT_LOAD. -/
def mkNSegment (elfsize : Nat) (st : ScanSt) : ElfSegment :=
  { ptype := PT_LOAD
    flags := PF_R + PF_X + PF_W
    offset := ELF_PAGEALIGN elfsize st.last_load_align
    vaddr := ELF_PAGEALIGN (st.last_load_vaddr + st.last_load_size)
      st.last_load_align
    paddr := ELF_PAGEALIGN (st.last_load_vaddr + st.last_load_size)
      st.last_load_align
    filesz := st.pre_filesz
    memsz := st.pre_filesz
    align := st.last_load_align }

/-- The `dyn_segment` the PT_NOTE branch builds: PT_DYNAMIC relocated into
the new segment (`ctx->new_segment.vaddr/offset` hold `n_segment`'s values
at that point). -/
def mkDynSegment (elfsize : Nat) (st : ScanSt) : ElfSegment :=
  { ptype := PT_DYNAMIC
    flags := PF_R + PF_W
    offset := (mkNSegment elfsize st).offset
    vaddr := (mkNSegment elfsize st).vaddr
    paddr := (mkNSegment elfsize st).vaddr
    filesz := st.dyn_size
    memsz := st.dyn_size
    align := 8 }

/-- One pass of the program-header loop.  `idx` mirrors
`phdr_iter.index - 1`, the index of the segment at hand. -/
def phdr_scan (ctx : ShivaPrelinkCtx) (orig_interp : List Nat) (elfobj : ElfObj) :
    List ElfSegment → Nat → ScanSt → Except String (Option ScanOut)
  | [], _, _ => .ok none
  | segment :: rest, idx, st =>
    if segment.ptype = PT_LOAD then
      phdr_scan ctx orig_interp elfobj rest (idx + 1)
        { st with
          last_load_vaddr := segment.vaddr
          last_load_offset := segment.offset
          last_load_size := segment.memsz
          -- the C hard-codes 4096 here (`last_load_align = 4096; //segment.align`)
          last_load_align := 4096 }
    else if segment.ptype = PT_DYNAMIC then
      let dyn_size := (elf_dtag_count elfobj * sizeofDyn
        + sizeofDyn * NEW_DYN_COUNT) % U64
      let old_dynamic_size := elf_dtag_count elfobj * sizeofDyn
      -- `calloc(1, segment.filesz)` then `elf_segment_copy`
      match elf_segment_copy elfobj (List.replicate segment.filesz 0) segment with
      | none => .error "Failed to copy original dynamic segment"
      | some buf =>
        let pre_filesz := (segment.filesz + sizeofDyn * NEW_DYN_COUNT
          + (cstrlen ctx.input_patch + 1) + (cstrlen ctx.search_path + 1)
          + (cstrlen orig_interp + 1)) % U64
        phdr_scan ctx orig_interp elfobj rest (idx + 1)
          { st with
            found_dynamic := true
            dyn_src := segment
            dyn_size := dyn_size
            pre_filesz := pre_filesz
            dynamic_index := idx
            old_dynamic_segment := buf
            old_dynamic_size := old_dynamic_size }
    else if segment.ptype = PT_NOTE then
      if st.found_dynamic = false then
        .error "Failed to find PT_DYNAMIC before PT_NOTE"
      else
        .ok (some ⟨mkNSegment elfobj.size st, mkDynSegment elfobj.size st, idx, st⟩)
    else
      phdr_scan ctx orig_interp elfobj rest (idx + 1) st

/-- Update the first `SHT_DYNAMIC` section header to the new segment's
offset, address and dynamic-array size (the section-header loop). -/
def update_dynamic_shdr (ns_offset ns_vaddr dyn_size : Nat) :
    List ElfSection → List ElfSection
  | [] => []
  | s :: rest =>
    if s.stype = SHT_DYNAMIC then
      { s with offset := ns_offset, address := ns_vaddr, size := dyn_size } :: rest
    else
      s :: update_dynamic_shdr ns_offset ns_vaddr dyn_size rest

/-- The diagnostic of the final PT_INTERP length check (the C interpolates
the lengths into the message). -/
def interpOverflowMsg : String :=
  "PT_INTERP cannot house the interpreter string"

/-- The last PT_LOAD program header strictly before the first PT_NOTE —
the value `last_load_vaddr`/`last_load_size` hold when the loop breaks. -/
def lastLoadBefore : List ElfSegment → Option ElfSegment
  | [] => none
  | p :: rest =>
    if p.ptype = PT_NOTE then none
    else
      match lastLoadBefore rest with
      | some q => some q
      | none => if p.ptype = PT_LOAD then some p else none

/-- The last PT_DYNAMIC program header strictly before the first PT_NOTE —
the segment whose contents the prelinker captures. -/
def lastDynBefore : List ElfSegment → Option ElfSegment
  | [] => none
  | p :: rest =>
    if p.ptype = PT_NOTE then none
    else
      match lastDynBefore rest with
      | some q => some q
      | none => if p.ptype = PT_DYNAMIC then some p else none

/-- Does any program header have type PT_NOTE? -/
def hasNote (l : List ElfSegment) : Bool :=
  l.any (fun p => p.ptype == PT_NOTE)

/-- Does the first PT_NOTE strictly precede the first PT_DYNAMIC? -/
def notePrecedesDyn : List ElfSegment → Bool
  | [] => false
  | p :: rest =>
    if p.ptype = PT_NOTE then true
    else if p.ptype = PT_DYNAMIC then false
    else notePrecedesDyn rest

/-- Invariant of the scan state: once `found_dynamic` is set, the captured
fields describe the PT_DYNAMIC segment last processed. -/
def ScanInv (ctx : ShivaPrelinkCtx) (orig_interp : List Nat) (elfobj : ElfObj)
    (st : ScanSt) : Prop :=
  st.found_dynamic = true →
    st.dyn_src.ptype = PT_DYNAMIC ∧
    st.dyn_size = (elf_dtag_count elfobj * sizeofDyn
      + sizeofDyn * NEW_DYN_COUNT) % U64 ∧
    st.old_dynamic_size = elf_dtag_count elfobj * sizeofDyn ∧
    st.pre_filesz = (st.dyn_src.filesz + sizeofDyn * NEW_DYN_COUNT
      + (cstrlen ctx.input_patch + 1) + (cstrlen ctx.search_path + 1)
      + (cstrlen orig_interp + 1)) % U64 ∧
    elf_segment_copy elfobj (List.replicate st.dyn_src.filesz 0) st.dyn_src
      = some st.old_dynamic_segment

/-- The three new dynamic entries and the terminator (`dyn[0] .. dyn[3]` in
the write-out phase), with the 64-bit wrap of the `d_ptr` sums explicit. -/
def newShivaDyns (ctx : ShivaPrelinkCtx) (so : ScanOut) : List ElfDyn :=
  [⟨SHIVA_DT_SEARCH, (so.n_segment.vaddr + so.st.dyn_size) % U64⟩,
   ⟨SHIVA_DT_NEEDED, (so.n_segment.vaddr + so.st.dyn_size
      + cstrlen ctx.search_path + 1) % U64⟩,
   ⟨SHIVA_DT_ORIG_INTERP, (so.n_segment.vaddr + so.st.dyn_size
      + cstrlen ctx.search_path + 1 + cstrlen ctx.input_patch + 1) % U64⟩,
   ⟨DT_NULL, 0⟩]

/-- The byte contents the seven `write` calls produce in the temporary file:
the original image, zero padding up to the new segment's file offset (the C
writes that padding from a 1-byte buffer, so the bytes past the first are
indeterminate; zeros stand for them), the old dynamic entries minus their
final entry, the new entries, and the three NUL-terminated strings. -/
def prelinkBase (ctx : ShivaPrelinkCtx) (elfobj : ElfObj)
    (orig_interp : List Nat) (so : ScanOut) : List Nat :=
  elfobj.mem
    ++ List.replicate (so.n_segment.offset - elfobj.size) 0
    ++ so.st.old_dynamic_segment.take (so.st.old_dynamic_size - sizeofDyn)
    ++ dynBytes (newShivaDyns ctx so)
    ++ cstr ctx.search_path ++ [0]
    ++ cstr ctx.input_patch ++ [0]
    ++ cstr orig_interp ++ [0]

/-- Successful result of `shiva_prelink`: the scan result, the program
headers and section headers after the two `elf_*_modify` calls, the saved
original interpreter string, the input's `stat` metadata, and the bytes of
the finished output file. -/
structure PrelinkOut where
  scan : ScanOut
  phdrs2 : List ElfSegment
  sections2 : List ElfSection
  orig_interp : List Nat
  st_meta : FileMeta
  out_bytes : List Nat
  deriving DecidableEq

/-- `shiva_prelink`.  `tmpName` is the fresh name `mkstemp` picked;
`procUid`/`procGid` are the process identity `mkstemp` creates the temporary
file with.  The returned `FS` is the file system after the call (also on the
error paths).  I/O primitives themselves (write, rename, the reopen of the
output) are modelled as succeeding; their failure branches in the C only
propagate `false`.  The in-place `elf_segment_modify`/`elf_section_modify`
writes land in the program/section header tables of the mapped image, which
no theorem below inspects; `mem` therefore stays the opened image. -/
def shiva_prelink (ctx : ShivaPrelinkCtx) (elfobj : ElfObj) (tmpName : String)
    (procUid procGid : Nat) (fs : FS) : Except String PrelinkOut × FS :=
  match elfobj.interp with
  | none => (.error "elf_interpreter_path() failed", fs)
  | some interp0 =>
    -- `strdup` of the interpreter C string
    let orig_interp := cstr interp0
    if elfobj.dynFlag = false then
      (.error "Currently we do not support static ELF executable", fs)
    else
      match phdr_scan ctx orig_interp elfobj elfobj.phdrs 0 initScanSt with
      | .error e => (.error e, fs)
      | .ok none => (.error "Failed to create an extra load segment", fs)
      | .ok (some so) =>
        let phdrs2 := (elfobj.phdrs.set so.note_index so.n_segment).set
          so.st.dynamic_index so.dyn_segment
        let sections2 := update_dynamic_shdr so.n_segment.offset
          so.n_segment.vaddr so.st.dyn_size elfobj.sections
        match fs elfobj.path with
        | none => (.error "stat", fs)
        | some inFile =>
          let st_meta := inFile.meta
          let base := prelinkBase ctx elfobj orig_interp so
          -- mkstemp creates the temporary (mode 0600, process identity) …
          let fs_a := fs.setFile tmpName ⟨[], ⟨procUid, procGid, 0o600⟩⟩
          -- … the writes fill it …
          let fs_b := fs_a.setFile tmpName ⟨base, ⟨procUid, procGid, 0o600⟩⟩
          -- … fchown/fchmod apply the input's stat, and rename installs it
          let fs_c := fs_b.setFile tmpName ⟨base, st_meta⟩
          let fs_d := fs_c.rename tmpName ctx.output_exec
          -- reopen the output and stamp `SHIVA_SIGNATURE` into e_ident[EI_PAD]
          let bytes1 := writeBytesAt base EI_PAD (toLE4 SHIVA_SIGNATURE)
          let fs_e := fs_d.setFile ctx.output_exec ⟨bytes1, st_meta⟩
          -- the final PT_INTERP length check runs only now, after the rename
          if cstrlen ctx.interp_path > cstrlen orig_interp then
            (.error interpOverflowMsg, fs_e)
          else
            -- `strcpy(path, ctx->interp_path)` into the mapped output
            let bytes2 := writeBytesAt bytes1 elfobj.interpOff
              (cstr ctx.interp_path ++ [0])
            let fs_f := fs_e.setFile ctx.output_exec ⟨bytes2, st_meta⟩
            (.ok ⟨so, phdrs2, sections2, orig_interp, st_meta, bytes2⟩, fs_f)

/-!
## The CLI entry point

`main` prints usage and exits 0 when `argc < 3` or when any of the five
required flags is absent after option parsing.  While parsing `-e` it runs
`access(input, F_OK)` and exits 1 on failure (before the missing-flag
check).  With all flags present it opens the input and runs the prelinker,
exiting 1 with a diagnostic on `stderr` on failure.  `strdup` failures
(out of memory) are not modelled.
-/

/-- Observable outcome of a `shiva-ld` invocation. -/
structure MainOut where
  exit_code : Nat
  usage : Bool
  stderr_diag : Bool
  deriving DecidableEq, Repr

/-- The `main` of shiva-ld.  `e_opt … o_opt` are the values `getopt_long`
collected for `-e -p -i -s -o` (`none` = flag absent); `elf_open` models
`elf_open_object` on the input path. -/
def main_shiva_ld (argc : Nat) (e_opt : Option String)
    (p_opt i_opt s_opt : Option (List Nat)) (o_opt : Option String)
    (elf_open : String → Option ElfObj) (tmpName : String)
    (procUid procGid : Nat) (fs : FS) : MainOut :=
  if argc < 3 then
    ⟨0, true, false⟩
  else
    -- the getopt loop: `access(ctx.input_exec, F_OK)` runs while handling `-e`
    match e_opt with
    | some e =>
      if (fs e).isNone then
        ⟨1, false, true⟩
      else
        match p_opt, i_opt, s_opt, o_opt with
        | some p, some i, some s, some o =>
          match elf_open e with
          | none => ⟨1, false, true⟩
          | some elfobj =>
            match (shiva_prelink ⟨e, p, o, s, i⟩ elfobj tmpName
                procUid procGid fs).1 with
            | .error _ => ⟨1, false, true⟩
            | .ok _ => ⟨0, false, false⟩
        | _, _, _, _ => ⟨0, true, false⟩
    | none => ⟨0, true, false⟩

/-!
## Concrete inputs

A small well-formed dynamic executable (`exA`), used to exercise the
successful path, and variants for the failure paths.  The image is 4096
bytes of zeros (its contents apart from the sizes play no role in the
claims); the dynamic array has one real entry followed by the terminator and
lives at virtual address 300, served byte-exactly by `readByte`.
-/

/-- The dynamic entries of the example: one real entry, then the terminator. -/
def dynsA : List ElfDyn := [⟨21, 99⟩, ⟨DT_NULL, 0⟩]

/-- PT_LOAD, PT_DYNAMIC (filesz 32 = 2 entries), PT_NOTE — in that order. -/
def phdrsA : List ElfSegment :=
  [⟨PT_LOAD, 5, 0, 0, 0, 4096, 4096, 4096⟩,
   ⟨PT_DYNAMIC, 6, 200, 300, 300, 32, 32, 8⟩,
   ⟨PT_NOTE, 4, 400, 500, 500, 36, 36, 4⟩]

/-- A byte-level view serving exactly the dynamic segment's bytes. -/
def readByteA (v : Nat) : Option Nat :=
  if 300 ≤ v ∧ v < 300 + 32 then (dynBytes dynsA).get? (v - 300) else none

/-- The example executable: interpreter "/a" (bytes 47, 97) at offset 32. -/
def exA : ElfObj :=
  { path := "in"
    size := 4096
    mem := List.replicate 4096 0
    phdrs := phdrsA
    sections := [⟨SHT_DYNAMIC, 200, 300, 32⟩]
    dyns := dynsA
    dynFlag := true
    interp := some [47, 97]
    interpOff := 32
    readByte := readByteA }

/-- Prelink arguments: patch "p", search path "s", interpreter "/" (length
1 ≤ 2, so the final check passes). -/
def ctxA : ShivaPrelinkCtx :=
  { input_exec := "in"
    input_patch := [112]
    output_exec := "out"
    search_path := [115]
    interp_path := [47] }

/-- A file system holding only the input, with distinctive metadata. -/
def fsA : FS :=
  fun q => if q = "in" then some ⟨List.replicate 4096 0, ⟨5, 6, 0o755⟩⟩ else none

/-- The example run. -/
def runA : Except String PrelinkOut × FS :=
  shiva_prelink ctxA exA "tmpA" 0 0 fsA

/-- The successful result of the example run (falls back to a dummy on the
error branch, which `runA` does not take). -/
def outA : PrelinkOut :=
  match runA.1 with
  | .ok o => o
  | .error _ => ⟨⟨⟨0,0,0,0,0,0,0,0⟩, ⟨0,0,0,0,0,0,0,0⟩, 0, initScanSt⟩, [], [], [], ⟨0,0,0⟩, []⟩

/-- `exA` with the dynamically-linked flag cleared: a static executable
(that still carries a PT_INTERP). -/
def exStatic : ElfObj := { exA with dynFlag := false }

/-- `exA` without any PT_NOTE program header. -/
def exNoNote : ElfObj :=
  { exA with phdrs := [⟨PT_LOAD, 5, 0, 0, 0, 4096, 4096, 4096⟩,
                       ⟨PT_DYNAMIC, 6, 200, 300, 300, 32, 32, 8⟩] }

/-- Prelink arguments with a three-byte interpreter path "/bc", longer than
the original two-byte "/a". -/
def ctxC1 : ShivaPrelinkCtx := { ctxA with interp_path := [47, 98, 99] }

/-- The overflow run: identical to `runA` except for the longer new
interpreter path, which only the final check rejects. -/
def runC1 : Except String PrelinkOut × FS :=
  shiva_prelink ctxC1 exA "tmpC" 0 0 fsA

/-- Program headers whose PT_DYNAMIC declares `filesz` 48 — one 16-byte
entry more than the two entries the parsed dynamic array holds. -/
def phdrsB : List ElfSegment :=
  [⟨PT_LOAD, 5, 0, 0, 0, 4096, 4096, 4096⟩,
   ⟨PT_DYNAMIC, 6, 200, 300, 300, 48, 48, 8⟩,
   ⟨PT_NOTE, 4, 400, 500, 500, 36, 36, 4⟩]

/-- A byte-level view serving 48 readable zero bytes at the dynamic
segment. -/
def readByteB (v : Nat) : Option Nat :=
  if 300 ≤ v ∧ v < 300 + 48 then some 0 else none

/-- An executable whose PT_DYNAMIC `filesz` (48) exceeds
`elf_dtag_count * 16` (32): the padded dynamic segments real linkers
emit. -/
def exB : ElfObj := { exA with phdrs := phdrsB, readByte := readByteB }

/-- The padded-dynamic run. -/
def runB : Except String PrelinkOut × FS :=
  shiva_prelink ctxA exB "tmpB" 0 0 fsA

deriving instance DecidableEq for Except

/-!
## Byte-level lemmas
-/

theorem fromLE_toLE8 {n : Nat} (h : n < U64) : fromLE (toLE8 n) = n := by
  simp only [fromLE, toLE8, List.foldr]
  simp only [U64] at h
  omega

theorem toLE8_fromLE {bs : List Nat} (hlen : bs.length = 8)
    (hb : ∀ b ∈ bs, b < 256) : toLE8 (fromLE bs) = bs := by
  match bs, hlen with
  | [b0, b1, b2, b3, b4, b5, b6, b7], _ =>
    simp only [List.mem_cons, List.not_mem_nil, or_false, forall_eq_or_imp,
      forall_eq] at hb
    simp only [fromLE, toLE8, List.foldr, List.cons.injEq, and_true]
    refine ⟨?_, ?_, ?_, ?_, ?_, ?_, ?_, ?_⟩ <;> omega

theorem toLE8_lt (n : Nat) : ∀ b ∈ toLE8 n, b < 256 := by
  simp only [toLE8, List.mem_cons, List.not_mem_nil, or_false]
  rintro b (rfl | rfl | rfl | rfl | rfl | rfl | rfl | rfl) <;>
    exact Nat.mod_lt _ (by omega)

theorem toLE8_length (n : Nat) : (toLE8 n).length = 8 := rfl

theorem serializeDyn_length (d : ElfDyn) : (serializeDyn d).length = 16 := rfl

theorem dynBytes_length (ds : List ElfDyn) :
    (dynBytes ds).length = sizeofDyn * ds.length := by
  induction ds with
  | nil => rfl
  | cons d rest ih =>
    simp only [dynBytes, List.flatMap_cons] at *
    simp [List.length_append, ih, serializeDyn_length, List.length_cons,
      sizeofDyn]
    ring

theorem dynBytes_lt (ds : List ElfDyn) : ∀ b ∈ dynBytes ds, b < 256 := by
  intro b hb
  simp only [dynBytes, List.mem_flatMap] at hb
  obtain ⟨d, _, hmem⟩ := hb
  simp only [serializeDyn, List.mem_append] at hmem
  rcases hmem with h | h
  · exact toLE8_lt _ _ h
  · exact toLE8_lt _ _ h

theorem dynBytes_append (xs ys : List ElfDyn) :
    dynBytes (xs ++ ys) = dynBytes xs ++ dynBytes ys := by
  simp [dynBytes]

theorem parseDyns_cons (d : ElfDyn) (rest : List Nat)
    (ht : d.d_tag < U64) (hp : d.d_ptr < U64) :
    parseDyns (serializeDyn d ++ rest) =
      d :: parseDyns rest := by
  show parseDyns (toLE8 d.d_tag ++ toLE8 d.d_ptr ++ rest) = _
  simp only [toLE8, List.cons_append, List.nil_append, parseDyns]
  rw [show fromLE [d.d_tag % 256, d.d_tag / 256 % 256, d.d_tag / 256 ^ 2 % 256,
      d.d_tag / 256 ^ 3 % 256, d.d_tag / 256 ^ 4 % 256, d.d_tag / 256 ^ 5 % 256,
      d.d_tag / 256 ^ 6 % 256, d.d_tag / 256 ^ 7 % 256] = fromLE (toLE8 d.d_tag)
      from rfl, fromLE_toLE8 ht]
  rw [show fromLE [d.d_ptr % 256, d.d_ptr / 256 % 256, d.d_ptr / 256 ^ 2 % 256,
      d.d_ptr / 256 ^ 3 % 256, d.d_ptr / 256 ^ 4 % 256, d.d_ptr / 256 ^ 5 % 256,
      d.d_ptr / 256 ^ 6 % 256, d.d_ptr / 256 ^ 7 % 256] = fromLE (toLE8 d.d_ptr)
      from rfl, fromLE_toLE8 hp]
  simp

theorem parseDyns_dynBytes_append (ds : List ElfDyn) (rest : List Nat)
    (hb : ∀ d ∈ ds, d.d_tag < U64 ∧ d.d_ptr < U64) :
    parseDyns (dynBytes ds ++ rest) = ds ++ parseDyns rest := by
  induction ds with
  | nil => simp [dynBytes]
  | cons d tl ih =>
    have hd := hb d (by simp)
    simp only [dynBytes, List.flatMap_cons, List.append_assoc]
    rw [show tl.flatMap serializeDyn = dynBytes tl from rfl,
      parseDyns_cons d _ hd.1 hd.2, ih (fun x hx => hb x (by simp [hx]))]
    rfl

/-!
## `writeBytesAt` lemmas
-/

theorem writeBytesAt_length {l repl : List Nat} {off : Nat}
    (h : off + repl.length ≤ l.length) :
    (writeBytesAt l off repl).length = l.length := by
  simp only [writeBytesAt, List.length_append, List.length_take,
    List.length_drop]
  omega

theorem writeBytesAt_getElem {l repl : List Nat} {off : Nat}
    (h : off + repl.length ≤ l.length) (k : Nat) :
    (writeBytesAt l off repl)[k]? =
      if off ≤ k ∧ k < off + repl.length then repl[k - off]? else l[k]? := by
  simp only [writeBytesAt, List.append_assoc]
  rw [List.getElem?_append, List.getElem?_append, List.getElem?_take,
    List.getElem?_drop]
  simp only [List.length_take, Nat.min_eq_left (by omega : off ≤ l.length)]
  by_cases h1 : k < off
  · rw [if_pos h1, if_pos h1, if_neg (by omega)]
  · rw [if_neg h1]
    by_cases h2 : k < off + repl.length
    · rw [if_pos (by omega : k - off < repl.length), if_pos ⟨by omega, h2⟩]
    · rw [if_neg (by omega : ¬k - off < repl.length), if_neg (by omega)]
      congr 1
      omega

theorem writeBytesAt_getElem_lo {l repl : List Nat} {off : Nat}
    (h : off + repl.length ≤ l.length) {k : Nat} (hk : k < off) :
    (writeBytesAt l off repl)[k]? = l[k]? := by
  rw [writeBytesAt_getElem h, if_neg (by omega)]

theorem writeBytesAt_drop {l repl : List Nat} {off n : Nat}
    (h : off + repl.length ≤ l.length) (hn : off + repl.length ≤ n) :
    (writeBytesAt l off repl).drop n = l.drop n := by
  apply List.ext_getElem?
  intro k
  rw [List.getElem?_drop, List.getElem?_drop,
    writeBytesAt_getElem h, if_neg (by omega)]

/-!
## Characterization of `elf_segment_copy`

On a segment whose `filesz` is a multiple of 8 the outer loop stops one
qword short: the guard `i + 8 >= segment.filesz` fires on the final full
qword (and `rem = 0` makes the byte tail empty), so bytes
`[filesz - 8, filesz)` of the destination are never written.
-/

theorem segCopyLoop_spec (elfobj : ElfObj) (vaddr filesz : Nat) (m : Nat → Nat)
    (hm : ∀ k, k < filesz → elf_read_byte elfobj (vaddr + k) = some (m k))
    (hb : ∀ k, k < filesz → m k < 256)
    (h8 : filesz % 8 = 0) :
    ∀ fuel i dst, filesz ≤ i + 8 * fuel → i % 8 = 0 → dst.length = filesz →
      ∃ dst', segCopyLoop elfobj vaddr filesz (filesz % 8) fuel i dst = some dst' ∧
        dst'.length = filesz ∧
        ∀ k, dst'[k]? = if i ≤ k ∧ k + 8 < filesz then some (m k) else dst[k]? := by
  intro fuel
  induction fuel with
  | zero =>
    intro i dst hn _ hlen
    refine ⟨dst, rfl, hlen, ?_⟩
    intro k
    rw [if_neg (by omega)]
  | succ n ih =>
    intro i dst hn hi hlen
    by_cases hlt : i < filesz
    · by_cases hend : i + 8 ≥ filesz
      · -- final iteration: `rem = 0`, so nothing is copied before the break
        refine ⟨dst, ?_, hlen, ?_⟩
        · rw [segCopyLoop, if_pos hlt, if_pos hend, h8]
          rfl
        · intro k
          rw [if_neg (by omega)]
      · -- a full qword is copied at offset i, then the loop continues
        have hq : elf_read_qword elfobj (vaddr + i) =
            some (fromLE [m i, m (i+1), m (i+2), m (i+3),
                          m (i+4), m (i+5), m (i+6), m (i+7)]) := by
          have h0 := hm i (by omega)
          have h1 := hm (i+1) (by omega)
          have h2 := hm (i+2) (by omega)
          have h3 := hm (i+3) (by omega)
          have h4 := hm (i+4) (by omega)
          have h5 := hm (i+5) (by omega)
          have h6 := hm (i+6) (by omega)
          have h7 := hm (i+7) (by omega)
          simp only [elf_read_byte] at h0 h1 h2 h3 h4 h5 h6 h7
          rw [elf_read_qword,
            show vaddr + i + 1 = vaddr + (i+1) by omega,
            show vaddr + i + 2 = vaddr + (i+2) by omega,
            show vaddr + i + 3 = vaddr + (i+3) by omega,
            show vaddr + i + 4 = vaddr + (i+4) by omega,
            show vaddr + i + 5 = vaddr + (i+5) by omega,
            show vaddr + i + 6 = vaddr + (i+6) by omega,
            show vaddr + i + 7 = vaddr + (i+7) by omega,
            h0, h1, h2, h3, h4, h5, h6, h7]
        have hrt : toLE8 (fromLE [m i, m (i+1), m (i+2), m (i+3),
            m (i+4), m (i+5), m (i+6), m (i+7)]) =
            [m i, m (i+1), m (i+2), m (i+3), m (i+4), m (i+5), m (i+6), m (i+7)] := by
          apply toLE8_fromLE (by simp)
          simp only [List.mem_cons, List.not_mem_nil, or_false]
          rintro b (rfl | rfl | rfl | rfl | rfl | rfl | rfl | rfl) <;>
            exact hb _ (by omega)
        have hwlen : (writeBytesAt dst i (toLE8 (fromLE [m i, m (i+1), m (i+2),
            m (i+3), m (i+4), m (i+5), m (i+6), m (i+7)]))).length = filesz := by
          rw [hrt, writeBytesAt_length (by simp; omega)]
          exact hlen
        obtain ⟨dst', hrun, hlen', hchar⟩ := ih (i + 8) _ (by omega) (by omega) hwlen
        refine ⟨dst', ?_, hlen', ?_⟩
        · rw [segCopyLoop, if_pos hlt, if_neg (by omega), hq]
          exact hrun
        · intro k
          rw [hchar k]
          by_cases hk1 : i + 8 ≤ k ∧ k + 8 < filesz
          · rw [if_pos hk1, if_pos (by omega)]
          · rw [if_neg hk1,
              writeBytesAt_getElem (by rw [toLE8_length, hlen]; omega),
              toLE8_length, hrt]
            by_cases hk2 : i ≤ k ∧ k < i + 8
            · rw [if_pos hk2]
              -- filesz and i are multiples of 8 and i + 8 < filesz,
              -- so the whole qword [i, i+8) lies below filesz - 8
              rw [if_pos (by omega)]
              have : k - i = 0 ∨ k - i = 1 ∨ k - i = 2 ∨ k - i = 3 ∨
                  k - i = 4 ∨ k - i = 5 ∨ k - i = 6 ∨ k - i = 7 := by omega
              rcases this with h | h | h | h | h | h | h | h <;>
                · rw [h]
                  simp only [List.getElem?_cons_zero, List.getElem?_cons_succ]
                  congr 2
                  omega
            · rw [if_neg hk2, if_neg (by omega)]
    · refine ⟨dst, ?_, hlen, ?_⟩
      · rw [segCopyLoop, if_neg hlt]
      · intro k
        rw [if_neg (by omega)]

/-- `elf_segment_copy` on a segment whose size is a multiple of 8 and whose
bytes are all readable: the copy succeeds and fills exactly the first
`filesz - 8` destination bytes. -/
theorem elf_segment_copy_spec (elfobj : ElfObj) (segment : ElfSegment)
    (dst : List Nat) (m : Nat → Nat)
    (hm : ∀ k, k < segment.filesz →
      elf_read_byte elfobj (segment.vaddr + k) = some (m k))
    (hb : ∀ k, k < segment.filesz → m k < 256)
    (h8 : segment.filesz % 8 = 0) (hlen : dst.length = segment.filesz) :
    ∃ dst', elf_segment_copy elfobj dst segment = some dst' ∧
      dst'.length = segment.filesz ∧
      ∀ k, dst'[k]? =
        if k + 8 < segment.filesz then some (m k) else dst[k]? := by
  obtain ⟨dst', hrun, hlen', hchar⟩ :=
    segCopyLoop_spec elfobj segment.vaddr segment.filesz m hm hb h8
      (segment.filesz / 8 + 1) 0 dst (by omega) (by omega) hlen
  refine ⟨dst', hrun, hlen', fun k => ?_⟩
  rw [hchar k]
  by_cases hk : k + 8 < segment.filesz
  · rw [if_pos ⟨by omega, hk⟩, if_pos hk]
  · rw [if_neg (by omega), if_neg hk]

/-!
## Characterization of the program-header scan
-/

theorem lastLoadBefore_cons_eq (p : ElfSegment) (rest : List ElfSegment) :
    lastLoadBefore (p :: rest) =
      if p.ptype = PT_NOTE then none
      else
        match lastLoadBefore rest with
        | some q => some q
        | none => if p.ptype = PT_LOAD then some p else none := rfl

theorem lastDynBefore_cons_eq (p : ElfSegment) (rest : List ElfSegment) :
    lastDynBefore (p :: rest) =
      if p.ptype = PT_NOTE then none
      else
        match lastDynBefore rest with
        | some q => some q
        | none => if p.ptype = PT_DYNAMIC then some p else none := rfl

theorem lastLoadBefore_map_getD (p : ElfSegment) (rest : List ElfSegment)
    (hN : ¬p.ptype = PT_NOTE) (f : ElfSegment → Nat) (dflt : Nat) :
    ((lastLoadBefore (p :: rest)).map f).getD dflt =
      ((lastLoadBefore rest).map f).getD
        (if p.ptype = PT_LOAD then f p else dflt) := by
  rw [lastLoadBefore_cons_eq, if_neg hN]
  cases hq : lastLoadBefore rest with
  | none =>
    by_cases hP : p.ptype = PT_LOAD
    · simp [hP]
    · simp [hP]
  | some q => simp

theorem lastLoadBefore_isSome_cons (p : ElfSegment) (rest : List ElfSegment)
    (hN : ¬p.ptype = PT_NOTE) (hL : ¬p.ptype = PT_LOAD) :
    (lastLoadBefore (p :: rest)).isSome = (lastLoadBefore rest).isSome := by
  rw [lastLoadBefore_cons_eq, if_neg hN]
  cases hq : lastLoadBefore rest with
  | none => simp [if_neg hL]
  | some q => simp

theorem lastLoadBefore_isSome_cons_load (p : ElfSegment) (rest : List ElfSegment)
    (hN : ¬p.ptype = PT_NOTE) (hL : p.ptype = PT_LOAD) :
    (lastLoadBefore (p :: rest)).isSome = true := by
  rw [lastLoadBefore_cons_eq, if_neg hN]
  cases hq : lastLoadBefore rest with
  | none => simp [if_pos hL]
  | some q => simp

theorem lastDynBefore_getD (p : ElfSegment) (rest : List ElfSegment)
    (hN : ¬p.ptype = PT_NOTE) (dflt : ElfSegment) :
    (lastDynBefore (p :: rest)).getD dflt =
      (lastDynBefore rest).getD
        (if p.ptype = PT_DYNAMIC then p else dflt) := by
  rw [lastDynBefore_cons_eq, if_neg hN]
  cases hq : lastDynBefore rest with
  | none =>
    by_cases hP : p.ptype = PT_DYNAMIC
    · simp [hP]
    · simp [hP]
  | some q => simp

theorem phdr_scan_ok_spec (ctx : ShivaPrelinkCtx) (oi : List Nat)
    (elfobj : ElfObj) :
    ∀ (l : List ElfSegment) (idx : Nat) (st : ScanSt) (so : ScanOut),
      phdr_scan ctx oi elfobj l idx st = .ok (some so) →
      ScanInv ctx oi elfobj st →
      so.n_segment = mkNSegment elfobj.size so.st ∧
      so.dyn_segment = mkDynSegment elfobj.size so.st ∧
      so.st.found_dynamic = true ∧
      ScanInv ctx oi elfobj so.st ∧
      so.st.last_load_vaddr
        = ((lastLoadBefore l).map (fun p => p.vaddr)).getD st.last_load_vaddr ∧
      so.st.last_load_size
        = ((lastLoadBefore l).map (fun p => p.memsz)).getD st.last_load_size ∧
      so.st.last_load_align
        = (if (lastLoadBefore l).isSome then 4096 else st.last_load_align) ∧
      so.st.dyn_src = (lastDynBefore l).getD st.dyn_src := by
  intro l
  induction l with
  | nil =>
    intro idx st so h _
    simp [phdr_scan] at h
  | cons p rest ih =>
    intro idx st so h hInv
    by_cases hL : p.ptype = PT_LOAD
    · rw [phdr_scan, if_pos hL] at h
      have hNote : ¬p.ptype = PT_NOTE := by rw [hL]; decide
      have hInv2 : ScanInv ctx oi elfobj
          { st with
            last_load_vaddr := p.vaddr
            last_load_offset := p.offset
            last_load_size := p.memsz
            last_load_align := 4096 } := fun hf => hInv hf
      obtain ⟨c1, c2, c3, c4, c5, c6, c7, c8⟩ := ih (idx + 1) _ so h hInv2
      refine ⟨c1, c2, c3, c4, ?_, ?_, ?_, ?_⟩
      · rw [lastLoadBefore_map_getD p rest hNote, if_pos hL]
        exact c5
      · rw [lastLoadBefore_map_getD p rest hNote, if_pos hL]
        exact c6
      · rw [lastLoadBefore_isSome_cons_load p rest hNote hL, if_pos rfl]
        rw [c7]
        cases hq : lastLoadBefore rest with
        | none => simp [hq]
        | some q => simp [hq]
      · rw [lastDynBefore_getD p rest hNote, if_neg (by rw [hL]; decide)]
        exact c8
    · by_cases hD : p.ptype = PT_DYNAMIC
      · rw [phdr_scan, if_neg hL, if_pos hD] at h
        have hNote : ¬p.ptype = PT_NOTE := by rw [hD]; decide
        cases hc : elf_segment_copy elfobj (List.replicate p.filesz 0) p with
        | none => rw [hc] at h; simp at h
        | some buf =>
          rw [hc] at h
          simp only at h
          have hInv2 : ScanInv ctx oi elfobj
              { st with
                found_dynamic := true
                dyn_src := p
                dyn_size := (elf_dtag_count elfobj * sizeofDyn
                  + sizeofDyn * NEW_DYN_COUNT) % U64
                pre_filesz := (p.filesz + sizeofDyn * NEW_DYN_COUNT
                  + (cstrlen ctx.input_patch + 1) + (cstrlen ctx.search_path + 1)
                  + (cstrlen oi + 1)) % U64
                dynamic_index := idx
                old_dynamic_segment := buf
                old_dynamic_size := elf_dtag_count elfobj * sizeofDyn } :=
            fun _ => ⟨hD, rfl, rfl, rfl, hc⟩
          obtain ⟨c1, c2, c3, c4, c5, c6, c7, c8⟩ := ih (idx + 1) _ so h hInv2
          refine ⟨c1, c2, c3, c4, ?_, ?_, ?_, ?_⟩
          · rw [lastLoadBefore_map_getD p rest hNote, if_neg hL]
            exact c5
          · rw [lastLoadBefore_map_getD p rest hNote, if_neg hL]
            exact c6
          · rw [lastLoadBefore_isSome_cons p rest hNote hL]
            exact c7
          · rw [lastDynBefore_getD p rest hNote, if_pos hD]
            exact c8
      · by_cases hN : p.ptype = PT_NOTE
        · rw [phdr_scan, if_neg hL, if_neg hD, if_pos hN] at h
          cases hf : st.found_dynamic with
          | false => rw [if_pos (by rw [hf])] at h; simp at h
          | true =>
            rw [if_neg (by rw [hf]; simp)] at h
            simp only [Except.ok.injEq, Option.some.injEq] at h
            subst h
            refine ⟨rfl, rfl, hf, hInv, ?_, ?_, ?_, ?_⟩ <;>
              simp [lastLoadBefore_cons_eq, lastDynBefore_cons_eq, if_pos hN]
        · rw [phdr_scan, if_neg hL, if_neg hD, if_neg hN] at h
          obtain ⟨c1, c2, c3, c4, c5, c6, c7, c8⟩ := ih (idx + 1) st so h hInv
          refine ⟨c1, c2, c3, c4, ?_, ?_, ?_, ?_⟩
          · rw [lastLoadBefore_map_getD p rest hN, if_neg hL]
            exact c5
          · rw [lastLoadBefore_map_getD p rest hN, if_neg hL]
            exact c6
          · rw [lastLoadBefore_isSome_cons p rest hN hL]
            exact c7
          · rw [lastDynBefore_getD p rest hN, if_neg hD]
            exact c8

/-- With no PT_NOTE at all, or with the first PT_NOTE before the first
PT_DYNAMIC (and no PT_DYNAMIC yet seen), the scan never reaches its
successful break. -/
theorem phdr_scan_no_note (ctx : ShivaPrelinkCtx) (oi : List Nat)
    (elfobj : ElfObj) :
    ∀ (l : List ElfSegment) (idx : Nat) (st : ScanSt),
      (hasNote l = false ∨
        (notePrecedesDyn l = true ∧ st.found_dynamic = false)) →
      ∀ so, phdr_scan ctx oi elfobj l idx st ≠ .ok (some so) := by
  intro l
  induction l with
  | nil =>
    intro idx st _ so h
    simp [phdr_scan] at h
  | cons p rest ih =>
    intro idx st hyp so h
    by_cases hL : p.ptype = PT_LOAD
    · rw [phdr_scan, if_pos hL] at h
      refine ih (idx + 1) _ ?_ so h
      have hNote : ¬p.ptype = PT_NOTE := by rw [hL]; decide
      have hDyn : ¬p.ptype = PT_DYNAMIC := by rw [hL]; decide
      rcases hyp with hyp | ⟨hyp, hfd⟩
      · left
        simpa [hasNote, hNote] using hyp
      · right
        rw [notePrecedesDyn, if_neg hNote, if_neg hDyn] at hyp
        exact ⟨hyp, hfd⟩
    · by_cases hD : p.ptype = PT_DYNAMIC
      · have hNote : ¬p.ptype = PT_NOTE := by rw [hD]; decide
        rcases hyp with hyp | ⟨hyp, _⟩
        · rw [phdr_scan, if_neg hL, if_pos hD] at h
          cases hc : elf_segment_copy elfobj (List.replicate p.filesz 0) p with
          | none => rw [hc] at h; simp at h
          | some buf =>
            rw [hc] at h
            simp only at h
            refine ih (idx + 1) _ ?_ so h
            left
            simpa [hasNote, hNote] using hyp
        · rw [notePrecedesDyn, if_neg hNote, if_pos hD] at hyp
          exact absurd hyp (by simp)
      · by_cases hN : p.ptype = PT_NOTE
        · rcases hyp with hyp | ⟨_, hfd⟩
          · rw [hasNote] at hyp
            simp [hN] at hyp
          · rw [phdr_scan, if_neg hL, if_neg hD, if_pos hN,
              if_pos (by rw [hfd])] at h
            simp at h
        · rw [phdr_scan, if_neg hL, if_neg hD, if_neg hN] at h
          refine ih (idx + 1) st ?_ so h
          rcases hyp with hyp | ⟨hyp, hfd⟩
          · left
            simpa [hasNote, hN] using hyp
          · right
            rw [notePrecedesDyn, if_neg hN, if_neg hD] at hyp
            exact ⟨hyp, hfd⟩

/-- The scan's error messages: only the copy failure and the
note-before-dynamic diagnostic can come out of the loop. -/
theorem phdr_scan_error_msgs (ctx : ShivaPrelinkCtx) (oi : List Nat)
    (elfobj : ElfObj) :
    ∀ (l : List ElfSegment) (idx : Nat) (st : ScanSt) (e : String),
      phdr_scan ctx oi elfobj l idx st = .error e →
      e = "Failed to copy original dynamic segment" ∨
        e = "Failed to find PT_DYNAMIC before PT_NOTE" := by
  intro l
  induction l with
  | nil =>
    intro idx st e h
    simp [phdr_scan] at h
  | cons p rest ih =>
    intro idx st e h
    by_cases hL : p.ptype = PT_LOAD
    · rw [phdr_scan, if_pos hL] at h
      exact ih (idx + 1) _ e h
    · by_cases hD : p.ptype = PT_DYNAMIC
      · rw [phdr_scan, if_neg hL, if_pos hD] at h
        cases hc : elf_segment_copy elfobj (List.replicate p.filesz 0) p with
        | none =>
          rw [hc] at h
          simp only [Except.error.injEq] at h
          exact Or.inl h.symm
        | some buf =>
          rw [hc] at h
          simp only at h
          exact ih (idx + 1) _ e h
      · by_cases hN : p.ptype = PT_NOTE
        · rw [phdr_scan, if_neg hL, if_neg hD, if_pos hN] at h
          cases hf : st.found_dynamic with
          | false =>
            rw [if_pos (by rw [hf])] at h
            simp only [Except.error.injEq] at h
            exact Or.inr h.symm
          | true =>
            rw [if_neg (by rw [hf]; simp)] at h
            simp at h
        · rw [phdr_scan, if_neg hL, if_neg hD, if_neg hN] at h
          exact ih (idx + 1) st e h

/-!
## Structure of a successful `shiva_prelink`
-/

theorem shiva_prelink_ok_spec (ctx : ShivaPrelinkCtx) (elfobj : ElfObj)
    (tmpName : String) (procUid procGid : Nat) (fs : FS)
    (out : PrelinkOut) (fs2 : FS)
    (h : shiva_prelink ctx elfobj tmpName procUid procGid fs = (.ok out, fs2)) :
    ∃ interp0 inFile,
      elfobj.interp = some interp0 ∧
      out.orig_interp = cstr interp0 ∧
      elfobj.dynFlag = true ∧
      phdr_scan ctx out.orig_interp elfobj elfobj.phdrs 0 initScanSt
        = .ok (some out.scan) ∧
      fs elfobj.path = some inFile ∧
      out.st_meta = inFile.meta ∧
      cstrlen ctx.interp_path ≤ cstrlen out.orig_interp ∧
      out.out_bytes = writeBytesAt
        (writeBytesAt (prelinkBase ctx elfobj out.orig_interp out.scan)
          EI_PAD (toLE4 SHIVA_SIGNATURE))
        elfobj.interpOff (cstr ctx.interp_path ++ [0]) ∧
      fs2 ctx.output_exec = some ⟨out.out_bytes, out.st_meta⟩ := by
  unfold shiva_prelink at h
  cases hI : elfobj.interp with
  | none => rw [hI] at h; simp at h
  | some interp0 =>
    rw [hI] at h
    simp only at h
    cases hF : elfobj.dynFlag with
    | false => rw [if_pos (by rw [hF])] at h; simp at h
    | true =>
      rw [if_neg (by rw [hF]; simp)] at h
      cases hS : phdr_scan ctx (cstr interp0) elfobj elfobj.phdrs 0 initScanSt with
      | error e => rw [hS] at h; simp at h
      | ok oso =>
        cases oso with
        | none => rw [hS] at h; simp at h
        | some so =>
          rw [hS] at h
          simp only at h
          cases hP : fs elfobj.path with
          | none => rw [hP] at h; simp at h
          | some inFile =>
            rw [hP] at h
            simp only at h
            by_cases hO : cstrlen ctx.interp_path > cstrlen (cstr interp0)
            · rw [if_pos hO] at h
              simp at h
            · rw [if_neg hO] at h
              simp only [Prod.mk.injEq, Except.ok.injEq] at h
              obtain ⟨hout, hfs⟩ := h
              subst hout
              refine ⟨interp0, inFile, rfl, rfl, rfl, hS, rfl, rfl,
                Nat.le_of_not_lt hO, rfl, ?_⟩
              rw [← hfs]
              simp [FS.setFile]

/-!
## The bytes of the new segment in the output file
-/

theorem cstr_cstr (l : List Nat) : cstr (cstr l) = cstr l := by
  induction l with
  | nil => rfl
  | cons b rest ih =>
    by_cases hb : b = 0
    · simp [cstr, hb]
    · simp only [cstr, List.takeWhile] at *
      simp only [show (b != 0) = true by simpa using hb, List.takeWhile_cons]
      simp only [show (b != 0) = true by simpa using hb, if_true]
      simpa using ih

theorem le_ELF_PAGEALIGN {v : Nat} (h : v + 4095 < U64) :
    v ≤ ELF_PAGEALIGN v 4096 := by
  have h1 : (v + 4096 - 1) % U64 = v + 4095 := Nat.mod_eq_of_lt (by omega)
  simp only [ELF_PAGEALIGN, h1]
  have h2 : (v + 4095) % 4096 < 4096 := Nat.mod_lt _ (by omega)
  omega

theorem dynBytes_dropLast (l : List ElfDyn) (hne : l ≠ []) :
    dynBytes l.dropLast = (dynBytes l).take (sizeofDyn * (l.length - 1)) := by
  have h1 : dynBytes l = dynBytes l.dropLast ++ serializeDyn (l.getLast hne) := by
    conv_lhs => rw [← List.dropLast_append_getLast hne]
    rw [dynBytes_append]
    simp [dynBytes]
  rw [h1, List.take_left' (by rw [dynBytes_length, List.length_dropLast])]

theorem prelink_tail_spec (ctx : ShivaPrelinkCtx) (elfobj : ElfObj)
    (tmpName : String) (procUid procGid : Nat) (fs : FS)
    (out : PrelinkOut) (fs2 : FS) (L D : ElfSegment)
    (h : shiva_prelink ctx elfobj tmpName procUid procGid fs = (.ok out, fs2))
    (hmemlen : elfobj.mem.length = elfobj.size)
    (hsz64 : EI_PAD + 4 ≤ elfobj.size)
    (hintp : elfobj.interpOff + (cstrlen ctx.interp_path + 1) ≤ elfobj.size)
    (hwrap : elfobj.size + 4095 < U64)
    (hL : lastLoadBefore elfobj.phdrs = some L)
    (hD : lastDynBefore elfobj.phdrs = some D)
    (hne : elfobj.dyns ≠ [])
    (hfsz : D.filesz = sizeofDyn * elfobj.dyns.length)
    (hszB : sizeofDyn * elfobj.dyns.length + 48 < U64)
    (hrd : ∀ k, k < sizeofDyn * elfobj.dyns.length →
      elfobj.readByte (D.vaddr + k) = (dynBytes elfobj.dyns)[k]?)
    :
    ∃ f, fs2 ctx.output_exec = some f ∧
      f.bytes.drop out.scan.n_segment.offset =
        dynBytes (elfobj.dyns.dropLast ++ newShivaDyns ctx out.scan)
          ++ cstr ctx.search_path ++ [0]
          ++ cstr ctx.input_patch ++ [0]
          ++ out.orig_interp ++ [0] ∧
      out.scan.st.dyn_size
        = sizeofDyn * (elfobj.dyns.length + NEW_DYN_COUNT) ∧
      (dynBytes (elfobj.dyns.dropLast ++ newShivaDyns ctx out.scan)).length
        = out.scan.st.dyn_size := by
  obtain ⟨interp0, inFile, hI, hOI, hF, hS, hP, hM, hOV, hOB, hFS⟩ :=
    shiva_prelink_ok_spec ctx elfobj tmpName procUid procGid fs out fs2 h
  obtain ⟨c1, c2, c3, c4, c5, c6, c7, c8⟩ :=
    phdr_scan_ok_spec ctx out.orig_interp elfobj elfobj.phdrs 0 initScanSt
      out.scan hS (fun hf => by simp [initScanSt] at hf)
  -- the captured dynamic segment is D
  have hsrc : out.scan.st.dyn_src = D := by rw [c8, hD]; rfl
  obtain ⟨_, hdynsz, holdsz, hpre, hcopy⟩ := c4 c3
  set n := elfobj.dyns.length with hn
  have hnpos : 1 ≤ n := by
    rw [hn]
    cases hq : elfobj.dyns with
    | nil => exact absurd hq hne
    | cons a b => simp
  -- the dynamic-array size without the 64-bit wrap
  have hdynsz' : out.scan.st.dyn_size = sizeofDyn * (n + NEW_DYN_COUNT) := by
    rw [hdynsz, elf_dtag_count, ← hn]
    rw [Nat.mod_eq_of_lt (by simp only [sizeofDyn, NEW_DYN_COUNT] at *; omega)]
    simp only [sizeofDyn, NEW_DYN_COUNT] at *
    omega
  have holdsz' : out.scan.st.old_dynamic_size = sizeofDyn * n := by
    rw [holdsz, elf_dtag_count, hn]
    exact Nat.mul_comm _ _
  -- run the copy characterization on D
  have hdlen : (dynBytes elfobj.dyns).length = sizeofDyn * n := by
    rw [dynBytes_length, hn]
  have hcopyD := hcopy
  rw [hsrc] at hcopyD
  obtain ⟨buf, hrun, hbuflen, hchar⟩ :=
    elf_segment_copy_spec elfobj D (List.replicate D.filesz 0)
      (fun k => (dynBytes elfobj.dyns).getD k 0)
      (fun k hk => by
        have hk2 : k < sizeofDyn * n := by rw [← hfsz]; exact hk
        have hk3 : k < (dynBytes elfobj.dyns).length := by
          rw [hdlen]; exact hk2
        rw [elf_read_byte, hrd k hk2, List.getElem?_eq_getElem hk3]
        simp [List.getD_eq_getElem _ _ hk3, List.getElem?_eq_getElem hk3])
      (fun k hk => by
        have hk' : k < (dynBytes elfobj.dyns).length := by
          rw [hdlen, ← hfsz]; exact hk
        simp only [List.getD_eq_getElem _ _ hk']
        exact dynBytes_lt _ _ (List.getElem_mem hk'))
      (by rw [hfsz]; simp only [sizeofDyn]; omega)
      (by simp)
  have hbuf : buf = out.scan.st.old_dynamic_segment := by
    rw [hcopyD] at hrun
    exact ((Option.some.injEq _ _).mp hrun).symm
  -- the written prefix of the copied buffer is the serialized dynamic
  -- array without its final entry
  have htake : out.scan.st.old_dynamic_segment.take
      (out.scan.st.old_dynamic_size - sizeofDyn) = dynBytes elfobj.dyns.dropLast := by
    rw [← hbuf, holdsz', dynBytes_dropLast _ hne, ← hn,
      show sizeofDyn * n - sizeofDyn = sizeofDyn * (n - 1) by
        simp only [sizeofDyn]; omega]
    apply List.ext_getElem?
    intro k
    rw [List.getElem?_take, List.getElem?_take]
    by_cases hk : k < sizeofDyn * (n - 1)
    · have hkfs : k + 8 < D.filesz := by
        rw [hfsz]
        simp only [sizeofDyn] at hk ⊢
        omega
      have hkd : k < (dynBytes elfobj.dyns).length := by
        rw [hdlen]
        simp only [sizeofDyn] at hk ⊢
        omega
      rw [if_pos hk, if_pos hk, hchar k, if_pos hkfs,
        List.getElem?_eq_getElem hkd]
      simp [List.getD_eq_getElem _ _ hkd, List.getElem?_eq_getElem hkd]
    · rw [if_neg hk, if_neg hk]
  refine ⟨⟨out.out_bytes, out.st_meta⟩, hFS, ?_, hdynsz', ?_⟩
  · -- peel the two in-place writes off the final bytes, then drop the
    -- original image and the padding
    have halign : out.scan.st.last_load_align = 4096 := by
      rw [c7, hL]
      rfl
    have hoff : out.scan.n_segment.offset = ELF_PAGEALIGN elfobj.size 4096 := by
      rw [c1]
      simp only [mkNSegment, halign]
    have hsizele : elfobj.size ≤ out.scan.n_segment.offset := by
      rw [hoff]
      exact le_ELF_PAGEALIGN hwrap
    have hbaselen : elfobj.size ≤ (prelinkBase ctx elfobj out.orig_interp out.scan).length := by
      simp only [prelinkBase, List.length_append, hmemlen]
      omega
    rw [hOB, writeBytesAt_drop
        (by
          rw [writeBytesAt_length (by simp [toLE4]; omega)]
          simp only [List.length_append, List.length_cons, cstr]
          calc elfobj.interpOff + ((cstr ctx.interp_path).length + 1)
              ≤ elfobj.size := hintp
            _ ≤ _ := hbaselen)
        (by
          have : elfobj.interpOff + (cstrlen ctx.interp_path + 1)
              ≤ out.scan.n_segment.offset := le_trans hintp hsizele
          simpa [cstrlen] using this),
      writeBytesAt_drop
        (by simp only [toLE4, List.length_cons, List.length_nil]; omega)
        (by simp only [toLE4, List.length_cons, List.length_nil]; omega)]
    -- now drop the first offset bytes of the base image
    have hsplit : prelinkBase ctx elfobj out.orig_interp out.scan =
        (elfobj.mem ++ List.replicate (out.scan.n_segment.offset - elfobj.size) 0)
          ++ (out.scan.st.old_dynamic_segment.take
              (out.scan.st.old_dynamic_size - sizeofDyn)
            ++ dynBytes (newShivaDyns ctx out.scan)
            ++ cstr ctx.search_path ++ [0]
            ++ cstr ctx.input_patch ++ [0]
            ++ cstr out.orig_interp ++ [0]) := by
      simp [prelinkBase, List.append_assoc]
    rw [hsplit, List.drop_left' (by
      simp only [List.length_append, List.length_replicate, hmemlen]
      omega)]
    rw [htake, hOI, cstr_cstr, ← hOI, ← dynBytes_append]
  · rw [dynBytes_length, hdynsz', List.length_append, List.length_dropLast,
      ← hn, newShivaDyns]
    simp only [List.length_cons, List.length_nil, NEW_DYN_COUNT, sizeofDyn]
    omega

/-- C1 (amended): when `shiva_prelink` fails because the new interpreter
path is longer than the original PT_INTERP string, the operation does fail —
but the output file has already been written: the interpreter-length check
runs only after the temporary file was renamed over the output path, so the
prelinked image (with the signature stamped, interpreter unreplaced) exists
at the output path in the resulting file system. -/
theorem c1_interp_overflow_output_written (ctx : ShivaPrelinkCtx) (elfobj : ElfObj)
    (tmpName : String) (procUid procGid : Nat) (fs : FS)
    (h : (shiva_prelink ctx elfobj tmpName procUid procGid fs).1
      = .error interpOverflowMsg) :
    ∃ f, (shiva_prelink ctx elfobj tmpName procUid procGid fs).2
      ctx.output_exec = some f := by
  unfold shiva_prelink at h ⊢
  cases hI : elfobj.interp with
  | none =>
    rw [hI] at h
    simp only [Except.error.injEq] at h
    exact absurd h (by simp [interpOverflowMsg])
  | some interp0 =>
    rw [hI] at h
    simp only at h ⊢
    cases hF : elfobj.dynFlag with
    | false =>
      rw [hF] at h
      rw [if_pos rfl] at h
      simp only [Except.error.injEq] at h
      exact absurd h (by simp [interpOverflowMsg])
    | true =>
      rw [hF] at h
      rw [if_neg (by simp)] at h ⊢
      cases hS : phdr_scan ctx (cstr interp0) elfobj elfobj.phdrs 0 initScanSt with
      | error e =>
        rw [hS] at h
        simp only [Except.error.injEq] at h
        rcases phdr_scan_error_msgs ctx (cstr interp0) elfobj
          elfobj.phdrs 0 initScanSt e hS with he | he <;>
          · rw [he] at h
            exact absurd h (by simp [interpOverflowMsg])
      | ok oso =>
        cases oso with
        | none =>
          rw [hS] at h
          simp only [Except.error.injEq] at h
          exact absurd h (by simp [interpOverflowMsg])
        | some so =>
          rw [hS] at h
          simp only at h ⊢
          cases hP : fs elfobj.path with
          | none =>
            rw [hP] at h
            simp only [Except.error.injEq] at h
            exact absurd h (by simp [interpOverflowMsg])
          | some inFile =>
            rw [hP] at h
            simp only at h ⊢
            by_cases hO : cstrlen ctx.interp_path > cstrlen (cstr interp0)
            · rw [if_pos hO]
              refine ⟨⟨writeBytesAt (prelinkBase ctx elfobj (cstr interp0) so)
                EI_PAD (toLE4 SHIVA_SIGNATURE), inFile.meta⟩, ?_⟩
              simp [FS.setFile]
            · rw [if_neg hO] at h
              simp at h

/-!
## Claim theorems
-/

/-- C10: on a segment whose `filesz` is a positive multiple of 8, with all
reads succeeding, `elf_segment_copy` returns `true` yet writes only the
first `filesz - 8` bytes of the destination buffer; the final 8 bytes (and
anything beyond) keep the caller's initial values, because the loop guard
`i + 8 >= segment.filesz` fires on the last full qword while `rem = 0`
leaves the byte tail empty. -/
theorem c10_segment_copy_omits_final_qword (elfobj : ElfObj)
    (segment : ElfSegment) (dst : List Nat) (m : Nat → Nat)
    (hm : ∀ k, k < segment.filesz →
      elf_read_byte elfobj (segment.vaddr + k) = some (m k))
    (hb : ∀ k, k < segment.filesz → m k < 256)
    (h8 : segment.filesz % 8 = 0) (hpos : 0 < segment.filesz)
    (hlen : dst.length = segment.filesz) :
    ∃ dst', elf_segment_copy elfobj dst segment = some dst' ∧
      dst'.length = dst.length ∧
      (∀ k, k < segment.filesz - 8 → dst'[k]? = some (m k)) ∧
      (∀ k, segment.filesz - 8 ≤ k → dst'[k]? = dst[k]?) := by
  obtain ⟨dst', hrun, hlen', hchar⟩ :=
    elf_segment_copy_spec elfobj segment dst m hm hb h8 hlen
  refine ⟨dst', hrun, by rw [hlen', hlen], ?_, ?_⟩
  · intro k hk
    rw [hchar k, if_pos (by omega)]
  · intro k hk
    rw [hchar k, if_neg (by omega)]

/-- C10 witness: the copy on the example's 32-byte dynamic segment into a
buffer of 7s: bytes 0–23 are copied, bytes 24–31 stay 7. -/
theorem c10_witness :
    ∃ dst', elf_segment_copy exA (List.replicate 32 7)
        ⟨PT_DYNAMIC, 6, 200, 300, 300, 32, 32, 8⟩ = some dst' ∧
      dst'.length = (List.replicate 32 7 : List Nat).length ∧
      (∀ k, k < (⟨PT_DYNAMIC, 6, 200, 300, 300, 32, 32, 8⟩ : ElfSegment).filesz - 8 →
        dst'[k]? = some ((dynBytes dynsA).getD k 0)) ∧
      (∀ k, (⟨PT_DYNAMIC, 6, 200, 300, 300, 32, 32, 8⟩ : ElfSegment).filesz - 8 ≤ k →
        dst'[k]? = (List.replicate 32 7 : List Nat)[k]?) :=
  c10_segment_copy_omits_final_qword exA ⟨PT_DYNAMIC, 6, 200, 300, 300, 32, 32, 8⟩
    (List.replicate 32 7) (fun k => (dynBytes dynsA).getD k 0)
    (by decide) (by decide) (by decide) (by decide) (by decide)

/-- C5 (amended): a statically linked input (dynamic flag clear) that still
carries a PT_INTERP is refused before any file is touched, but the
diagnostic is "Currently we do not support static ELF executable", not
"static ELF unsupported"; an input with no interpreter at all fails even
earlier, in `elf_interpreter_path`. -/
theorem c5_static_elf_refused (ctx : ShivaPrelinkCtx) (elfobj : ElfObj)
    (tmpName : String) (procUid procGid : Nat) (fs : FS) (ip : List Nat)
    (hI : elfobj.interp = some ip) (hF : elfobj.dynFlag = false) :
    shiva_prelink ctx elfobj tmpName procUid procGid fs =
      (.error "Currently we do not support static ELF executable", fs) := by
  unfold shiva_prelink
  rw [hI]
  simp only
  rw [if_pos hF]

/-- C5 counterexample: on a concrete static input the prelinker's message
is not the "static ELF unsupported" the claim states, and no output is
written. -/
theorem c5_counterexample :
    (shiva_prelink ctxA exStatic "t" 0 0 fsA).1 =
      .error "Currently we do not support static ELF executable" ∧
    "Currently we do not support static ELF executable" ≠
      "static ELF unsupported" ∧
    (shiva_prelink ctxA exStatic "t" 0 0 fsA).2 "out" = none := by
  refine ⟨rfl, by decide, rfl⟩

/-- C5 witness: the amended refusal at the concrete static input. -/
theorem c5_witness :
    shiva_prelink ctxA exStatic "t" 0 0 fsA =
      (.error "Currently we do not support static ELF executable", fsA) :=
  c5_static_elf_refused ctxA exStatic "t" 0 0 fsA [47, 97] rfl rfl

/-- C6: with no PT_NOTE program header at all, or with the first PT_NOTE
preceding the first PT_DYNAMIC, `shiva_prelink` fails with a fatal error
return (the PT_NOTE slot becomes the new PT_LOAD only when it is met after
PT_DYNAMIC). -/
theorem c6_note_ordering_required (ctx : ShivaPrelinkCtx) (elfobj : ElfObj)
    (tmpName : String) (procUid procGid : Nat) (fs : FS)
    (hyp : hasNote elfobj.phdrs = false ∨ notePrecedesDyn elfobj.phdrs = true) :
    ∃ e, (shiva_prelink ctx elfobj tmpName procUid procGid fs).1 = .error e := by
  unfold shiva_prelink
  cases hI : elfobj.interp with
  | none => exact ⟨_, rfl⟩
  | some interp0 =>
    simp only
    cases hF : elfobj.dynFlag with
    | false => rw [if_pos rfl]; exact ⟨_, rfl⟩
    | true =>
      rw [if_neg (by simp)]
      cases hS : phdr_scan ctx (cstr interp0) elfobj elfobj.phdrs 0 initScanSt with
      | error e => exact ⟨e, rfl⟩
      | ok oso =>
        cases oso with
        | none => exact ⟨_, rfl⟩
        | some so =>
          exact absurd hS (phdr_scan_no_note ctx (cstr interp0) elfobj
            elfobj.phdrs 0 initScanSt
            (by
              rcases hyp with hyp | hyp
              · exact Or.inl hyp
              · exact Or.inr ⟨hyp, rfl⟩) so)

/-- C6 witness: prelinking the note-less example fails. -/
theorem c6_witness :
    ∃ e, (shiva_prelink ctxA exNoNote "t" 0 0 fsA).1 = .error e :=
  c6_note_ordering_required ctxA exNoNote "t" 0 0 fsA (Or.inl (by decide))

/-- C1 counterexample: a run that fails on the interpreter-length check
leaves the prelinked file at the output path — "no output file is written"
is false: before the run "out" did not exist, after it it does. -/
theorem c1_counterexample :
    runC1.1 = .error interpOverflowMsg ∧
    fsA "out" = none ∧
    (runC1.2 "out").isSome = true := by
  refine ⟨by decide, by decide, by decide⟩

/-- C1 witness: the amended statement at the concrete overflow run. -/
theorem c1_witness :
    ∃ f, (shiva_prelink ctxC1 exA "tmpC" 0 0 fsA).2 ctxC1.output_exec = some f :=
  c1_interp_overflow_output_written ctxC1 exA "tmpC" 0 0 fsA (by decide)

/-- C9: on every successful prelink the output file's owner, group and mode
equal those the input executable had when it was stat'ed at the start of the
write-out (the temporary is fchown'd and fchmod'd from that stat before the
rename). -/
theorem c9_owner_group_mode_preserved (ctx : ShivaPrelinkCtx) (elfobj : ElfObj)
    (tmpName : String) (procUid procGid : Nat) (fs : FS)
    (out : PrelinkOut) (fs2 : FS)
    (h : shiva_prelink ctx elfobj tmpName procUid procGid fs = (.ok out, fs2)) :
    ∃ inF outF, fs elfobj.path = some inF ∧
      fs2 ctx.output_exec = some outF ∧
      outF.meta.uid = inF.meta.uid ∧
      outF.meta.gid = inF.meta.gid ∧
      outF.meta.mode = inF.meta.mode := by
  obtain ⟨interp0, inFile, hI, hOI, hF, hS, hP, hM, hOV, hOB, hFS⟩ :=
    shiva_prelink_ok_spec ctx elfobj tmpName procUid procGid fs out fs2 h
  exact ⟨inFile, ⟨out.out_bytes, out.st_meta⟩, hP, hFS,
    by rw [hM], by rw [hM], by rw [hM]⟩

set_option maxRecDepth 100000 in
/-- C9 witness: the example run preserves the input's uid/gid/mode. -/
theorem c9_witness :
    ∃ inF outF, fsA exA.path = some inF ∧
      runA.2 ctxA.output_exec = some outF ∧
      outF.meta.uid = inF.meta.uid ∧
      outF.meta.gid = inF.meta.gid ∧
      outF.meta.mode = inF.meta.mode :=
  c9_owner_group_mode_preserved ctxA exA "tmpA" 0 0 fsA outA runA.2
    (rfl)

/-- C8: every successful prelink output carries the 32-bit little-endian
magic `0x00031f64` in the ELF identification padding bytes at `EI_PAD`, and
the three custom dynamic-tag values are `DT_LOOS + 10/11/12` for
needed/search/orig-interp respectively. -/
theorem c8_signature_and_tag_values (ctx : ShivaPrelinkCtx) (elfobj : ElfObj)
    (tmpName : String) (procUid procGid : Nat) (fs : FS)
    (out : PrelinkOut) (fs2 : FS)
    (h : shiva_prelink ctx elfobj tmpName procUid procGid fs = (.ok out, fs2))
    (hmemlen : elfobj.mem.length = elfobj.size)
    (hsz : EI_PAD + 4 ≤ elfobj.size)
    (hoffpad : EI_PAD + 4 ≤ elfobj.interpOff)
    (hintp : elfobj.interpOff + (cstrlen ctx.interp_path + 1) ≤ elfobj.size) :
    (∃ f, fs2 ctx.output_exec = some f ∧
      fromLE ((f.bytes.drop EI_PAD).take 4) = SHIVA_SIGNATURE) ∧
    SHIVA_SIGNATURE = 0x31f64 ∧
    SHIVA_DT_NEEDED = DT_LOOS + 10 ∧
    SHIVA_DT_SEARCH = DT_LOOS + 11 ∧
    SHIVA_DT_ORIG_INTERP = DT_LOOS + 12 := by
  obtain ⟨interp0, inFile, hI, hOI, hF, hS, hP, hM, hOV, hOB, hFS⟩ :=
    shiva_prelink_ok_spec ctx elfobj tmpName procUid procGid fs out fs2 h
  refine ⟨⟨⟨out.out_bytes, out.st_meta⟩, hFS, ?_⟩, rfl, rfl, rfl, rfl⟩
  have hbaselen : elfobj.size
      ≤ (prelinkBase ctx elfobj out.orig_interp out.scan).length := by
    simp only [prelinkBase, List.length_append, hmemlen]
    omega
  have hw1 : EI_PAD + (toLE4 SHIVA_SIGNATURE).length
      ≤ (prelinkBase ctx elfobj out.orig_interp out.scan).length := by
    simp only [toLE4, List.length_cons, List.length_nil, EI_PAD] at *
    omega
  have hw2 : elfobj.interpOff + (cstr ctx.interp_path ++ [0]).length
      ≤ (writeBytesAt (prelinkBase ctx elfobj out.orig_interp out.scan)
          EI_PAD (toLE4 SHIVA_SIGNATURE)).length := by
    rw [writeBytesAt_length hw1]
    simp only [List.length_append, List.length_cons, List.length_nil]
    calc elfobj.interpOff + ((cstr ctx.interp_path).length + 1)
        ≤ elfobj.size := by simpa [cstrlen] using hintp
      _ ≤ _ := hbaselen
  have hbytes : (out.out_bytes.drop EI_PAD).take 4 = toLE4 SHIVA_SIGNATURE := by
    apply List.ext_getElem?
    intro j
    rw [List.getElem?_take, List.getElem?_drop]
    by_cases hj : j < 4
    · rw [if_pos hj, hOB,
        writeBytesAt_getElem_lo hw2 (by
          simp only [EI_PAD] at *
          omega),
        writeBytesAt_getElem hw1]
      rw [if_pos (by simp only [toLE4, List.length_cons, List.length_nil]; omega)]
      congr 1
      omega
    · rw [if_neg hj, List.getElem?_eq_none (by
        simp only [toLE4, List.length_cons, List.length_nil]
        omega)]
  rw [hbytes]
  decide

set_option maxRecDepth 100000 in
/-- C8 witness: the example output carries the signature, and the tag
values line up. -/
theorem c8_witness :
    (∃ f, runA.2 ctxA.output_exec = some f ∧
      fromLE ((f.bytes.drop EI_PAD).take 4) = SHIVA_SIGNATURE) ∧
    SHIVA_SIGNATURE = 0x31f64 ∧
    SHIVA_DT_NEEDED = DT_LOOS + 10 ∧
    SHIVA_DT_SEARCH = DT_LOOS + 11 ∧
    SHIVA_DT_ORIG_INTERP = DT_LOOS + 12 :=
  c8_signature_and_tag_values ctxA exA "tmpA" 0 0 fsA outA runA.2
    (rfl) (by rw [show exA.mem = List.replicate 4096 0 from rfl, List.length_replicate]; exact rfl) (by decide) (by decide) (by decide)

/-- C4 (amended): on every successful prelink the new PT_LOAD's file offset
is the input file size page-aligned, its vaddr is the last PT_LOAD's
`vaddr + memsz` page-aligned, its file size equals its memory size, and its
flags are R+W+X — but the size itself is the *original PT_DYNAMIC program
header's* `filesz` plus `3 × entry size` plus the three NUL-terminated
string lengths.  That equals the claimed
`(entry count + 3) × entry size + strings` only when the PT_DYNAMIC
`filesz` is exactly `entry count × entry size` (final conjunct). -/
theorem c4_new_segment_geometry (ctx : ShivaPrelinkCtx) (elfobj : ElfObj)
    (tmpName : String) (procUid procGid : Nat) (fs : FS)
    (out : PrelinkOut) (fs2 : FS) (L D : ElfSegment)
    (h : shiva_prelink ctx elfobj tmpName procUid procGid fs = (.ok out, fs2))
    (hL : lastLoadBefore elfobj.phdrs = some L)
    (hD : lastDynBefore elfobj.phdrs = some D)
    (hnw : D.filesz + sizeofDyn * NEW_DYN_COUNT + (cstrlen ctx.input_patch + 1)
      + (cstrlen ctx.search_path + 1) + (cstrlen out.orig_interp + 1) < U64) :
    out.scan.n_segment.offset = ELF_PAGEALIGN elfobj.size 4096 ∧
    out.scan.n_segment.vaddr = ELF_PAGEALIGN (L.vaddr + L.memsz) 4096 ∧
    out.scan.n_segment.filesz = out.scan.n_segment.memsz ∧
    out.scan.n_segment.flags = PF_R + PF_W + PF_X ∧
    out.scan.n_segment.filesz = D.filesz + sizeofDyn * NEW_DYN_COUNT
      + (cstrlen ctx.input_patch + 1) + (cstrlen ctx.search_path + 1)
      + (cstrlen out.orig_interp + 1) ∧
    (D.filesz = sizeofDyn * elfobj.dyns.length →
      out.scan.n_segment.filesz
        = sizeofDyn * (elfobj.dyns.length + NEW_DYN_COUNT)
          + (cstrlen ctx.input_patch + 1) + (cstrlen ctx.search_path + 1)
          + (cstrlen out.orig_interp + 1)) := by
  obtain ⟨interp0, inFile, hI, hOI, hF, hS, hP, hM, hOV, hOB, hFS⟩ :=
    shiva_prelink_ok_spec ctx elfobj tmpName procUid procGid fs out fs2 h
  obtain ⟨c1, c2, c3, c4, c5, c6, c7, c8⟩ :=
    phdr_scan_ok_spec ctx out.orig_interp elfobj elfobj.phdrs 0 initScanSt
      out.scan hS (fun hf => by simp [initScanSt] at hf)
  have hsrc : out.scan.st.dyn_src = D := by rw [c8, hD]; rfl
  obtain ⟨_, hdynsz, holdsz, hpre, hcopy⟩ := c4 c3
  have halign : out.scan.st.last_load_align = 4096 := by
    rw [c7, hL]
    rfl
  have hfsz : out.scan.n_segment.filesz = D.filesz + sizeofDyn * NEW_DYN_COUNT
      + (cstrlen ctx.input_patch + 1) + (cstrlen ctx.search_path + 1)
      + (cstrlen out.orig_interp + 1) := by
    rw [c1]
    show out.scan.st.pre_filesz = _
    rw [hpre, hsrc, Nat.mod_eq_of_lt hnw]
  refine ⟨?_, ?_, ?_, ?_, hfsz, ?_⟩
  · rw [c1]
    show ELF_PAGEALIGN elfobj.size out.scan.st.last_load_align = _
    rw [halign]
  · rw [c1]
    show ELF_PAGEALIGN (out.scan.st.last_load_vaddr + out.scan.st.last_load_size)
        out.scan.st.last_load_align = _
    rw [halign, c5, c6, hL]
    rfl
  · rw [c1]
    rfl
  · rw [c1]
    show PF_R + PF_X + PF_W = PF_R + PF_W + PF_X
    decide
  · intro hDsz
    rw [hfsz, hDsz]
    simp only [sizeofDyn, NEW_DYN_COUNT]
    ring_nf

/-- C4 counterexample: on an input whose PT_DYNAMIC program header declares
`filesz` 48 while the parsed dynamic array has 2 entries, the successful
run's new segment has file size `48 + 48 + 7 = 103`, not the claimed
`(2 + 3) × 16 + 7 = 87`. -/
theorem c4_counterexample :
    (runB.1.toOption.map fun o => o.scan.n_segment.filesz) = some 103 ∧
    sizeofDyn * (exB.dyns.length + NEW_DYN_COUNT) + (cstrlen ctxA.input_patch + 1)
      + (cstrlen ctxA.search_path + 1) + (cstrlen (cstr [47, 97]) + 1) = 87 ∧
    (103 : Nat) ≠ 87 := by
  refine ⟨by decide, by decide, by decide⟩

set_option maxRecDepth 100000 in
/-- C4 witness: the amended geometry at the example run. -/
theorem c4_witness :
    outA.scan.n_segment.offset = ELF_PAGEALIGN exA.size 4096 ∧
    outA.scan.n_segment.vaddr = ELF_PAGEALIGN (4096 : Nat) 4096 ∧
    outA.scan.n_segment.filesz = outA.scan.n_segment.memsz ∧
    outA.scan.n_segment.flags = PF_R + PF_W + PF_X ∧
    outA.scan.n_segment.filesz = (32 : Nat) + sizeofDyn * NEW_DYN_COUNT
      + (cstrlen ctxA.input_patch + 1) + (cstrlen ctxA.search_path + 1)
      + (cstrlen outA.orig_interp + 1) ∧
    ((32 : Nat) = sizeofDyn * exA.dyns.length →
      outA.scan.n_segment.filesz
        = sizeofDyn * (exA.dyns.length + NEW_DYN_COUNT)
          + (cstrlen ctxA.input_patch + 1) + (cstrlen ctxA.search_path + 1)
          + (cstrlen outA.orig_interp + 1)) :=
  c4_new_segment_geometry ctxA exA "tmpA" 0 0 fsA outA runA.2
    ⟨PT_LOAD, 5, 0, 0, 0, 4096, 4096, 4096⟩
    ⟨PT_DYNAMIC, 6, 200, 300, 300, 32, 32, 8⟩
    (rfl) (by decide) (by decide) (by decide)

/-- Parsing the dynamic-array region of a successful output: the original
entries minus the terminator, the three Shiva entries, the terminator. -/
theorem prelink_parse_spec (ctx : ShivaPrelinkCtx) (elfobj : ElfObj)
    (tmpName : String) (procUid procGid : Nat) (fs : FS)
    (out : PrelinkOut) (fs2 : FS) (L D : ElfSegment)
    (h : shiva_prelink ctx elfobj tmpName procUid procGid fs = (.ok out, fs2))
    (hmemlen : elfobj.mem.length = elfobj.size)
    (hsz64 : EI_PAD + 4 ≤ elfobj.size)
    (hintp : elfobj.interpOff + (cstrlen ctx.interp_path + 1) ≤ elfobj.size)
    (hwrap : elfobj.size + 4095 < U64)
    (hL : lastLoadBefore elfobj.phdrs = some L)
    (hD : lastDynBefore elfobj.phdrs = some D)
    (hne : elfobj.dyns ≠ [])
    (hterm : elfobj.dyns.getLast?.map (fun d => d.d_tag) = some DT_NULL)
    (hfsz : D.filesz = sizeofDyn * elfobj.dyns.length)
    (hszB : sizeofDyn * elfobj.dyns.length + 48 < U64)
    (hrd : ∀ k, k < sizeofDyn * elfobj.dyns.length →
      elfobj.readByte (D.vaddr + k) = (dynBytes elfobj.dyns)[k]?)
    (hbound : ∀ d ∈ elfobj.dyns, d.d_tag < U64 ∧ d.d_ptr < U64) :
    ∃ f, fs2 ctx.output_exec = some f ∧
      parseDyns ((f.bytes.drop out.scan.n_segment.offset).take
          out.scan.st.dyn_size) =
        elfobj.dyns.dropLast ++
          [⟨SHIVA_DT_SEARCH,
              (out.scan.n_segment.vaddr + out.scan.st.dyn_size) % U64⟩,
           ⟨SHIVA_DT_NEEDED,
              (out.scan.n_segment.vaddr + out.scan.st.dyn_size
                + cstrlen ctx.search_path + 1) % U64⟩,
           ⟨SHIVA_DT_ORIG_INTERP,
              (out.scan.n_segment.vaddr + out.scan.st.dyn_size
                + cstrlen ctx.search_path + 1
                + cstrlen ctx.input_patch + 1) % U64⟩,
           ⟨DT_NULL, 0⟩] := by
  obtain ⟨f, hfs, hdrop, hdsz, hdlen⟩ :=
    prelink_tail_spec ctx elfobj tmpName procUid procGid fs out fs2 L D
      h hmemlen hsz64 hintp hwrap hL hD hne hfsz hszB hrd
  refine ⟨f, hfs, ?_⟩
  rw [hdrop]
  rw [show dynBytes (elfobj.dyns.dropLast ++ newShivaDyns ctx out.scan)
        ++ cstr ctx.search_path ++ [0] ++ cstr ctx.input_patch ++ [0]
        ++ out.orig_interp ++ [0]
      = dynBytes (elfobj.dyns.dropLast ++ newShivaDyns ctx out.scan)
        ++ (cstr ctx.search_path ++ [0] ++ cstr ctx.input_patch ++ [0]
          ++ out.orig_interp ++ [0]) by simp [List.append_assoc]]
  rw [List.take_left' hdlen]
  have hb : ∀ d ∈ elfobj.dyns.dropLast ++ newShivaDyns ctx out.scan,
      d.d_tag < U64 ∧ d.d_ptr < U64 := by
    intro d hd
    rcases List.mem_append.mp hd with hd | hd
    · exact hbound d (List.dropLast_subset _ hd)
    · have hU : 0 < U64 := by decide
      simp only [newShivaDyns, List.mem_cons, List.not_mem_nil, or_false] at hd
      rcases hd with rfl | rfl | rfl | rfl
      · exact ⟨(by decide : SHIVA_DT_SEARCH < U64), Nat.mod_lt _ hU⟩
      · exact ⟨(by decide : SHIVA_DT_NEEDED < U64), Nat.mod_lt _ hU⟩
      · exact ⟨(by decide : SHIVA_DT_ORIG_INTERP < U64), Nat.mod_lt _ hU⟩
      · exact ⟨(by decide : DT_NULL < U64), (by decide : (0 : Nat) < U64)⟩
  have := parseDyns_dynBytes_append
    (elfobj.dyns.dropLast ++ newShivaDyns ctx out.scan) [] hb
  rw [List.append_nil] at this
  rw [this, show parseDyns [] = ([] : List ElfDyn) from rfl, List.append_nil]
  rfl

/-- C2: in every successful prelink output, the dynamic array inside the new
segment — the first `dyn_size` bytes at the segment's file offset, parsed as
16-byte entries — is every original dynamic entry except the terminator,
then three entries tagged `DT_SHIVA_SEARCH`, `DT_SHIVA_NEEDED`,
`DT_SHIVA_ORIG_INTERP` in that order, then a terminator entry with tag 0. -/
theorem c2_dynamic_array_layout (ctx : ShivaPrelinkCtx) (elfobj : ElfObj)
    (tmpName : String) (procUid procGid : Nat) (fs : FS)
    (out : PrelinkOut) (fs2 : FS) (L D : ElfSegment)
    (h : shiva_prelink ctx elfobj tmpName procUid procGid fs = (.ok out, fs2))
    (hmemlen : elfobj.mem.length = elfobj.size)
    (hsz64 : EI_PAD + 4 ≤ elfobj.size)
    (hintp : elfobj.interpOff + (cstrlen ctx.interp_path + 1) ≤ elfobj.size)
    (hwrap : elfobj.size + 4095 < U64)
    (hL : lastLoadBefore elfobj.phdrs = some L)
    (hD : lastDynBefore elfobj.phdrs = some D)
    (hne : elfobj.dyns ≠ [])
    (hterm : elfobj.dyns.getLast?.map (fun d => d.d_tag) = some DT_NULL)
    (hfsz : D.filesz = sizeofDyn * elfobj.dyns.length)
    (hszB : sizeofDyn * elfobj.dyns.length + 48 < U64)
    (hrd : ∀ k, k < sizeofDyn * elfobj.dyns.length →
      elfobj.readByte (D.vaddr + k) = (dynBytes elfobj.dyns)[k]?)
    (hbound : ∀ d ∈ elfobj.dyns, d.d_tag < U64 ∧ d.d_ptr < U64) :
    ∃ f, fs2 ctx.output_exec = some f ∧
      parseDyns ((f.bytes.drop out.scan.n_segment.offset).take
          out.scan.st.dyn_size) =
        elfobj.dyns.dropLast ++
          [⟨SHIVA_DT_SEARCH,
              (out.scan.n_segment.vaddr + out.scan.st.dyn_size) % U64⟩,
           ⟨SHIVA_DT_NEEDED,
              (out.scan.n_segment.vaddr + out.scan.st.dyn_size
                + cstrlen ctx.search_path + 1) % U64⟩,
           ⟨SHIVA_DT_ORIG_INTERP,
              (out.scan.n_segment.vaddr + out.scan.st.dyn_size
                + cstrlen ctx.search_path + 1
                + cstrlen ctx.input_patch + 1) % U64⟩,
           ⟨DT_NULL, 0⟩] :=
  prelink_parse_spec ctx elfobj tmpName procUid procGid fs out fs2 L D
    h hmemlen hsz64 hintp hwrap hL hD hne hterm hfsz hszB hrd hbound

set_option maxRecDepth 1000000 in
/-- C2 witness: the parsed dynamic array of the example output. -/
theorem c2_witness :
    ∃ f, runA.2 ctxA.output_exec = some f ∧
      parseDyns ((f.bytes.drop outA.scan.n_segment.offset).take
          outA.scan.st.dyn_size) =
        exA.dyns.dropLast ++
          [⟨SHIVA_DT_SEARCH,
              (outA.scan.n_segment.vaddr + outA.scan.st.dyn_size) % U64⟩,
           ⟨SHIVA_DT_NEEDED,
              (outA.scan.n_segment.vaddr + outA.scan.st.dyn_size
                + cstrlen ctxA.search_path + 1) % U64⟩,
           ⟨SHIVA_DT_ORIG_INTERP,
              (outA.scan.n_segment.vaddr + outA.scan.st.dyn_size
                + cstrlen ctxA.search_path + 1
                + cstrlen ctxA.input_patch + 1) % U64⟩,
           ⟨DT_NULL, 0⟩] :=
  c2_dynamic_array_layout ctxA exA "tmpA" 0 0 fsA outA runA.2
    ⟨PT_LOAD, 5, 0, 0, 0, 4096, 4096, 4096⟩
    ⟨PT_DYNAMIC, 6, 200, 300, 300, 32, 32, 8⟩
    (rfl) (by rw [show exA.mem = List.replicate 4096 0 from rfl, List.length_replicate]; exact rfl) (by decide) (by decide) (by decide)
    (by decide) (by decide) (by decide) (by decide) (by decide) (by decide)
    (by decide) (by decide)

/-- C3: in every successful prelink output, the three strings sit
immediately after the new dynamic array — search path, patch basename,
original interpreter, each NUL-terminated, in that order — and the `d_ptr`
of each Shiva tag is the new segment's vaddr plus the in-segment offset of
its string: `dyn_size` for the search path, `dyn_size + |search| + 1` for
the patch basename, `dyn_size + |search| + 1 + |patch| + 1` for the
original interpreter. -/
theorem c3_strings_and_dptr_targets (ctx : ShivaPrelinkCtx) (elfobj : ElfObj)
    (tmpName : String) (procUid procGid : Nat) (fs : FS)
    (out : PrelinkOut) (fs2 : FS) (L D : ElfSegment)
    (h : shiva_prelink ctx elfobj tmpName procUid procGid fs = (.ok out, fs2))
    (hmemlen : elfobj.mem.length = elfobj.size)
    (hsz64 : EI_PAD + 4 ≤ elfobj.size)
    (hintp : elfobj.interpOff + (cstrlen ctx.interp_path + 1) ≤ elfobj.size)
    (hwrap : elfobj.size + 4095 < U64)
    (hL : lastLoadBefore elfobj.phdrs = some L)
    (hD : lastDynBefore elfobj.phdrs = some D)
    (hne : elfobj.dyns ≠ [])
    (hterm : elfobj.dyns.getLast?.map (fun d => d.d_tag) = some DT_NULL)
    (hfsz : D.filesz = sizeofDyn * elfobj.dyns.length)
    (hszB : sizeofDyn * elfobj.dyns.length + 48 < U64)
    (hrd : ∀ k, k < sizeofDyn * elfobj.dyns.length →
      elfobj.readByte (D.vaddr + k) = (dynBytes elfobj.dyns)[k]?)
    (hbound : ∀ d ∈ elfobj.dyns, d.d_tag < U64 ∧ d.d_ptr < U64)
    (hnw : out.scan.n_segment.vaddr + out.scan.st.dyn_size
      + cstrlen ctx.search_path + 1 + cstrlen ctx.input_patch + 1 < U64) :
    ∃ f, fs2 ctx.output_exec = some f ∧
      f.bytes.drop (out.scan.n_segment.offset + out.scan.st.dyn_size) =
        cstr ctx.search_path ++ [0] ++ cstr ctx.input_patch ++ [0]
          ++ out.orig_interp ++ [0] ∧
      parseDyns ((f.bytes.drop out.scan.n_segment.offset).take
          out.scan.st.dyn_size) =
        elfobj.dyns.dropLast ++
          [⟨SHIVA_DT_SEARCH,
              out.scan.n_segment.vaddr + out.scan.st.dyn_size⟩,
           ⟨SHIVA_DT_NEEDED,
              out.scan.n_segment.vaddr + out.scan.st.dyn_size
                + (cstrlen ctx.search_path + 1)⟩,
           ⟨SHIVA_DT_ORIG_INTERP,
              out.scan.n_segment.vaddr + out.scan.st.dyn_size
                + (cstrlen ctx.search_path + 1) + (cstrlen ctx.input_patch + 1)⟩,
           ⟨DT_NULL, 0⟩] := by
  obtain ⟨f, hfs, hdrop, hdsz, hdlen⟩ :=
    prelink_tail_spec ctx elfobj tmpName procUid procGid fs out fs2 L D
      h hmemlen hsz64 hintp hwrap hL hD hne hfsz hszB hrd
  obtain ⟨f2, hfs2, hparse⟩ :=
    prelink_parse_spec ctx elfobj tmpName procUid procGid fs out fs2 L D
      h hmemlen hsz64 hintp hwrap hL hD hne hterm hfsz hszB hrd hbound
  have hff : f2 = f := by
    rw [hfs] at hfs2
    exact ((Option.some.injEq _ _).mp hfs2).symm
  rw [hff] at hparse
  refine ⟨f, hfs, ?_, ?_⟩
  · rw [← List.drop_drop, hdrop]
    rw [show dynBytes (elfobj.dyns.dropLast ++ newShivaDyns ctx out.scan)
          ++ cstr ctx.search_path ++ [0] ++ cstr ctx.input_patch ++ [0]
          ++ out.orig_interp ++ [0]
        = dynBytes (elfobj.dyns.dropLast ++ newShivaDyns ctx out.scan)
          ++ (cstr ctx.search_path ++ [0] ++ cstr ctx.input_patch ++ [0]
            ++ out.orig_interp ++ [0]) by simp [List.append_assoc]]
    rw [List.drop_left' hdlen]
  · rw [hparse]
    have e1 : (out.scan.n_segment.vaddr + out.scan.st.dyn_size) % U64
        = out.scan.n_segment.vaddr + out.scan.st.dyn_size :=
      Nat.mod_eq_of_lt (by omega)
    have e2 : (out.scan.n_segment.vaddr + out.scan.st.dyn_size
          + cstrlen ctx.search_path + 1) % U64
        = out.scan.n_segment.vaddr + out.scan.st.dyn_size
          + (cstrlen ctx.search_path + 1) := by
      rw [Nat.mod_eq_of_lt (by omega)]
      omega
    have e3 : (out.scan.n_segment.vaddr + out.scan.st.dyn_size
          + cstrlen ctx.search_path + 1 + cstrlen ctx.input_patch + 1) % U64
        = out.scan.n_segment.vaddr + out.scan.st.dyn_size
          + (cstrlen ctx.search_path + 1) + (cstrlen ctx.input_patch + 1) := by
      rw [Nat.mod_eq_of_lt (by omega)]
      omega
    rw [e1, e2, e3]

set_option maxRecDepth 1000000 in
/-- C3 witness: the strings and pointer targets of the example output. -/
theorem c3_witness :
    ∃ f, runA.2 ctxA.output_exec = some f ∧
      f.bytes.drop (outA.scan.n_segment.offset + outA.scan.st.dyn_size) =
        cstr ctxA.search_path ++ [0] ++ cstr ctxA.input_patch ++ [0]
          ++ outA.orig_interp ++ [0] ∧
      parseDyns ((f.bytes.drop outA.scan.n_segment.offset).take
          outA.scan.st.dyn_size) =
        exA.dyns.dropLast ++
          [⟨SHIVA_DT_SEARCH,
              outA.scan.n_segment.vaddr + outA.scan.st.dyn_size⟩,
           ⟨SHIVA_DT_NEEDED,
              outA.scan.n_segment.vaddr + outA.scan.st.dyn_size
                + (cstrlen ctxA.search_path + 1)⟩,
           ⟨SHIVA_DT_ORIG_INTERP,
              outA.scan.n_segment.vaddr + outA.scan.st.dyn_size
                + (cstrlen ctxA.search_path + 1) + (cstrlen ctxA.input_patch + 1)⟩,
           ⟨DT_NULL, 0⟩] :=
  c3_strings_and_dptr_targets ctxA exA "tmpA" 0 0 fsA outA runA.2
    ⟨PT_LOAD, 5, 0, 0, 0, 4096, 4096, 4096⟩
    ⟨PT_DYNAMIC, 6, 200, 300, 300, 32, 32, 8⟩
    (rfl) (by rw [show exA.mem = List.replicate 4096 0 from rfl, List.length_replicate]; exact rfl) (by decide) (by decide) (by decide)
    (by decide) (by decide) (by decide) (by decide) (by decide) (by decide)
    (by decide) (by decide) (by decide)

/-- C7 (amended): an invocation missing any of the five flags prints usage
and exits 0 — provided any `-e` argument that was given names an existing
file, because the `access` check inside the getopt loop exits 1 before the
missing-flag check runs.  An invocation where prelinking itself fails exits
1 after a diagnostic on standard error. -/
theorem c7_cli_usage_and_failure (argc : Nat) (e_opt : Option String)
    (p_opt i_opt s_opt : Option (List Nat)) (o_opt : Option String)
    (elf_open : String → Option ElfObj) (tmpName : String)
    (procUid procGid : Nat) (fs : FS) :
    ((e_opt = none ∨ p_opt = none ∨ i_opt = none ∨ s_opt = none ∨
        o_opt = none) →
      (∀ pa, e_opt = some pa → (fs pa).isSome = true) →
      main_shiva_ld argc e_opt p_opt i_opt s_opt o_opt elf_open tmpName
        procUid procGid fs = ⟨0, true, false⟩) ∧
    (∀ e p i s o elfobj m, ¬argc < 3 → e_opt = some e → p_opt = some p →
      i_opt = some i → s_opt = some s → o_opt = some o →
      (fs e).isSome = true → elf_open e = some elfobj →
      (shiva_prelink ⟨e, p, o, s, i⟩ elfobj tmpName procUid procGid fs).1
        = .error m →
      main_shiva_ld argc e_opt p_opt i_opt s_opt o_opt elf_open tmpName
        procUid procGid fs = ⟨1, false, true⟩) := by
  constructor
  · intro hmiss hacc
    by_cases h3 : argc < 3
    · simp [main_shiva_ld, h3]
    · cases he : e_opt with
      | none => simp [main_shiva_ld, h3, he]
      | some e =>
        have hs : (fs e).isSome = true := hacc e he
        have hn : (fs e).isNone = false := by
          cases hfe : fs e with
          | none => rw [hfe] at hs; simp at hs
          | some f => simp
        subst he
        cases p_opt <;> cases i_opt <;> cases s_opt <;> cases o_opt <;>
          first
          | (simp [main_shiva_ld, h3, hn]; done)
          | (rcases hmiss with hx | hx | hx | hx | hx <;> simp_all)
  · intro e p i s o elfobj m h3 he hp hi hs ho hacc hopen herr
    subst he hp hi hs ho
    have hn : (fs e).isNone = false := by
      cases hfe : fs e with
      | none => rw [hfe] at hacc; simp at hacc
      | some f => simp
    simp [main_shiva_ld, h3, hn, hopen, herr]

/-- C7 counterexample: `-o` is missing but the program exits 1 without
usage, because the `-e` argument names a nonexistent file and the `access`
check fires first. -/
theorem c7_counterexample :
    main_shiva_ld 9 (some "x") (some [1]) (some [1]) (some [1]) none
      (fun _ => none) "t" 0 0 (fun _ => none) = ⟨1, false, true⟩ ∧
    (⟨1, false, true⟩ : MainOut) ≠ ⟨0, true, false⟩ := by
  refine ⟨by decide, by decide⟩

/-- C7 witness: usage-and-exit-0 with no flags at all, and exit 1 with a
diagnostic when prelinking a static input fails. -/
theorem c7_witness :
    main_shiva_ld 2 none none none none none (fun _ => none) "t" 0 0 fsA
      = ⟨0, true, false⟩ ∧
    main_shiva_ld 11 (some "in") (some [112]) (some [47]) (some [115])
      (some "out") (fun q => if q = "in" then some exStatic else none)
      "t" 0 0 fsA = ⟨1, false, true⟩ :=
  ⟨(c7_cli_usage_and_failure 2 none none none none none (fun _ => none)
      "t" 0 0 fsA).1 (Or.inl rfl) (fun pa hpa => by simp at hpa),
   (c7_cli_usage_and_failure 11 (some "in") (some [112]) (some [47])
      (some [115]) (some "out")
      (fun q => if q = "in" then some exStatic else none) "t" 0 0 fsA).2
      "in" [112] [47] [115] "out" exStatic
      "Currently we do not support static ELF executable"
      (by omega) rfl rfl rfl rfl rfl (by decide) (by simp) (by decide)⟩

end ShivaLd
